import Mathlib

/-!
Verification of the label-verification matching engine
(`src/lib/textMatching.ts`, `src/lib/bboxMatching.ts` / `ocr-core.ts`,
`src/lib/ocr-server.ts`, `src/lib/constants.ts`) against its specification.

Modelling conventions:
* JavaScript numbers are modelled as exact rationals (`ℚ`).  Every numeric
  literal that the code manipulates is a short decimal, so the IEEE-754
  double of the source and the rational of the model agree on all the
  comparisons performed here.
* JavaScript strings are Lean `String`s; the scanning loops work over
  `List Char`.
* The handful of regular expressions in `constants.ts` are embedded as
  dedicated left-to-right scanners.  Each scanner reproduces the regex
  semantics (leftmost match, greedy quantifiers, ordered alternation,
  non-overlapping `matchAll`) for the concrete pattern it embeds; for these
  patterns a failed greedy attempt can never be rescued by backtracking
  (each literal tail starts with a character disjoint from the quantified
  classes), so the committed scanners below are exact.
-/

/-- JS whitespace (`\s`) restricted to the ASCII characters that can occur in
the strings handled by this code base. -/
def isWsJS (c : Char) : Bool :=
  c = ' ' || c = '\t' || c = '\n' || c = '\r' || c.toNat = 11 || c.toNat = 12

/-- Digit `0`-`9`. -/
def isDigitJS (c : Char) : Bool := '0' ≤ c && c ≤ '9'

/-- ASCII letter. -/
def isAlphaJS (c : Char) : Bool :=
  ('a' ≤ c && c ≤ 'z') || ('A' ≤ c && c ≤ 'Z')

/-- JS `\w` word character: letter, digit or underscore. -/
def isWordCharJS (c : Char) : Bool := isAlphaJS c || isDigitJS c || c = '_'

/-- ASCII lower-casing, as applied by `toLowerCase` on the ASCII strings in
this code base. -/
def lowerJS (c : Char) : Char := c.toLower

/-- `pat` occurs at the head of `s` (case-sensitive). -/
def leadsWith : List Char → List Char → Bool
  | [], _ => true
  | _ :: _, [] => false
  | p :: ps, c :: cs => p = c && leadsWith ps cs

/-- JS `s.includes(pat)` on character lists (`"".includes("")` is `true`). -/
def hasSubL : List Char → List Char → Bool
  | s, pat =>
    if leadsWith pat s then true
    else
      match s with
      | [] => false
      | _ :: cs => hasSubL cs pat

/-- JS `s.includes(pat)`. -/
def jsIncludes (s pat : String) : Bool := hasSubL s.data pat.data

/-- Drop leading JS whitespace. -/
def dropWsL (l : List Char) : List Char := l.dropWhile (fun c => isWsJS c)

/-- JS `trim`: strip whitespace from both ends. -/
def trimJS (l : List Char) : List Char :=
  ((dropWsL l).reverse.dropWhile (fun c => isWsJS c)).reverse

/-- Dropping a prefix by a predicate never lengthens a list. -/
theorem dropWhile_len_le (p : Char → Bool) :
    ∀ l : List Char, (l.dropWhile p).length ≤ l.length := by
  intro l
  induction l with
  | nil => simp [List.dropWhile]
  | cons c cs ih =>
    by_cases h : p c
    · simp only [List.dropWhile, h]
      exact Nat.le_succ_of_le ih
    · simp [List.dropWhile, h]

/-- JS `replace(/\s+/g, " ")`: collapse every whitespace run to one space. -/
def collapseWs : List Char → List Char
  | [] => []
  | c :: cs =>
    if isWsJS c then ' ' :: collapseWs (cs.dropWhile (fun d => isWsJS d))
    else c :: collapseWs cs
termination_by l => l.length
decreasing_by
  · exact Nat.lt_succ_of_le (dropWhile_len_le _ cs)
  · simp

/-- `normalizeText` from `textMatching.ts`: lower-case, trim, collapse
whitespace, drop everything but word characters, spaces, `.` and `%`, then
drop the dots. -/
def normalizeChars (l : List Char) : List Char :=
  let step1 := l.map lowerJS
  let step2 := collapseWs (trimJS step1)
  let step3 := step2.filter
    (fun c => isWordCharJS c || isWsJS c || c = '.' || c = '%')
  step3.filter (fun c => ¬ c = '.')

/-- String-level `normalizeText`. -/
def normalizeText (s : String) : String := ⟨normalizeChars s.data⟩

/-- JS `split(/\s+/)` restricted to the use `filter(w => w.length > 0)` that
always follows it in this code base: the list of maximal non-whitespace runs. -/
def splitWsTokens : List Char → List (List Char)
  | [] => []
  | c :: cs =>
    if isWsJS c then splitWsTokens (cs.dropWhile (fun d => isWsJS d))
    else
      (c :: cs.takeWhile (fun d => ¬ isWsJS d)) ::
        splitWsTokens (cs.dropWhile (fun d => ¬ isWsJS d))
termination_by l => l.length
decreasing_by
  · exact Nat.lt_succ_of_le (dropWhile_len_le _ cs)
  · exact Nat.lt_succ_of_le (dropWhile_len_le _ cs)

/-- JS `String.prototype.split(/\s+/)` without a nonempty filter: segments
between maximal whitespace runs, keeping the empty segment a leading or
trailing run produces (and `[""]` on the empty string), exactly as the
source's `extractMatch` iterates them. -/
def jsSplitWs : List Char → List Char → List (List Char)
  | [], acc => [acc.reverse]
  | c :: cs, acc =>
    if isWsJS c then
      acc.reverse :: jsSplitWs (cs.dropWhile (fun d => isWsJS d)) []
    else jsSplitWs cs (c :: acc)
termination_by l _ => l.length
decreasing_by
  · exact Nat.lt_succ_of_le (dropWhile_len_le _ cs)
  · simp

/-- Levenshtein edit distance, the recurrence computed by the
Wagner-Fischer matrix in `levenshteinDistance` (`textMatching.ts`). -/
def levDist : List Char → List Char → ℕ
  | [], ys => ys.length
  | xs, [] => xs.length
  | x :: xs, y :: ys =>
    if x = y then levDist xs ys
    else 1 + min (levDist xs ys) (min (levDist (x :: xs) ys) (levDist xs (y :: ys)))
termination_by xs ys => xs.length + ys.length
decreasing_by all_goals simp_arith

/-- JS `Math.round`: round half toward positive infinity. -/
def jsRound (q : ℚ) : ℤ := ⌊q + 1 / 2⌋

/-- JS `Math.abs` (an `if`, so that the kernel can evaluate it). -/
def jsAbs (q : ℚ) : ℚ := if q < 0 then -q else q

/-- JS `Math.min` on two numbers. -/
def jsMin (a b : ℚ) : ℚ := if a ≤ b then a else b

/-- JS `Math.max` on two numbers. -/
def jsMax (a b : ℚ) : ℚ := if b ≤ a then a else b

/-- The embedded `Math.abs` is the absolute value. -/
theorem jsAbs_eq_abs (q : ℚ) : jsAbs q = |q| := by
  unfold jsAbs
  rcases lt_or_le q 0 with h | h
  · simp [h, abs_of_neg h]
  · simp [not_lt.mpr h, abs_of_nonneg h]

/-- The embedded `Math.min` is `min`. -/
theorem jsMin_eq_min (a b : ℚ) : jsMin a b = min a b := by
  unfold jsMin
  rcases le_total a b with h | h
  · simp [h, min_eq_left h]
  · rcases eq_or_lt_of_le h with rfl | hlt
    · simp
    · simp [not_le.mpr hlt, min_eq_right h]

/-- The embedded `Math.max` is `max`. -/
theorem jsMax_eq_max (a b : ℚ) : jsMax a b = max a b := by
  unfold jsMax
  rcases le_total b a with h | h
  · simp [h, max_eq_left h]
  · rcases eq_or_lt_of_le h with rfl | hlt
    · simp
    · simp [not_le.mpr hlt, max_eq_right h]

/-- `calculateSimilarity` score: `round((maxLen - distance) / maxLen * 100)`,
`0` when both strings are empty. -/
def similarityScore (s1 s2 : String) : ℤ :=
  let d : ℚ := levDist s1.data s2.data
  let maxLen : ℚ := (Nat.max s1.data.length s2.data.length : ℕ)
  if 0 < maxLen then jsRound ((maxLen - d) / maxLen * 100) else 0

/-! ### JS number parsing and printing -/

/-- Numeric value of a digit character. -/
def digitVal (c : Char) : ℕ := c.toNat - 48

/-- Maximal digit run and the rest. -/
def takeDigits (l : List Char) : List Char × List Char :=
  (l.takeWhile (fun c => isDigitJS c), l.dropWhile (fun c => isDigitJS c))

/-- Value of a digit run. -/
def digitsToNat (ds : List Char) : ℕ :=
  ds.foldl (fun a c => 10 * a + digitVal c) 0

/-- The regex number token `\d+\.?\d*` read greedily at the head of the
input; returns its rational value and the rest of the input.  All patterns
embedded here follow the token with `\s*` and a literal starting in a letter
or `%`, so the greedy reading is exactly the regex semantics. -/
def numTokenAt (l : List Char) : Option (ℚ × List Char) :=
  match takeDigits l with
  | (d1, r1) =>
    if d1 = [] then none
    else
      match r1 with
      | '.' :: r2 =>
        match takeDigits r2 with
        | (d2, r3) =>
          some ((digitsToNat d1 : ℚ) + (digitsToNat d2 : ℚ) / 10 ^ d2.length, r3)
      | _ => some ((digitsToNat d1 : ℚ), r1)

/-- JS `parseFloat`, for the finite decimal literals this code base feeds
it (`Infinity` is not modelled); `none` stands for `NaN`. -/
def parseFloatOpt (s : String) : Option ℚ :=
  let l := dropWsL s.data
  let sl : ℚ × List Char :=
    match l with
    | '+' :: r => (1, r)
    | '-' :: r => (-1, r)
    | _ => (1, l)
  match takeDigits sl.2 with
  | (d1, r1) =>
    let fr : List Char × List Char :=
      match r1 with
      | '.' :: r => takeDigits r
      | _ => ([], r1)
    if d1 = [] ∧ fr.1 = [] then none
    else
      let base : ℚ := (digitsToNat d1 : ℚ) + (digitsToNat fr.1 : ℚ) / 10 ^ fr.1.length
      let ex : ℤ :=
        match fr.2 with
        | 'e' :: r | 'E' :: r =>
          let er : ℤ × List Char :=
            match r with
            | '+' :: rr => (1, rr)
            | '-' :: rr => (-1, rr)
            | _ => (1, r)
          match takeDigits er.2 with
          | (ed, _) => if ed = [] then 0 else er.1 * digitsToNat ed
        | _ => 0
      some (sl.1 * base * (10 : ℚ) ^ ex)

/-- JS `String(n)` / template interpolation for the exact decimal rationals
produced by `parseFloat` here: canonical decimal form without trailing
zeros. -/
def numToStr (q : ℚ) : String :=
  let sgn := if q < 0 then "-" else ""
  let n := q.num.natAbs
  let d := q.den
  match (List.range 31).find? (fun k => 10 ^ k % d == 0) with
  | some k =>
    if k = 0 then sgn ++ toString (n / d)
    else
      let m := n * (10 ^ k / d)
      let s := toString m
      let s := String.mk (List.replicate (k + 1 - s.length) '0') ++ s
      let ip := String.mk (s.data.take (s.length - k))
      let fp := ((s.data.drop (s.length - k)).reverse.dropWhile (fun c => c = '0')).reverse
      if fp = [] then sgn ++ ip else sgn ++ ip ++ "." ++ String.mk fp
  | none => sgn ++ toString n ++ "/" ++ toString d

/-- JS `s.replace(pat, "")` with a plain-string pattern: removes the first
occurrence. -/
def removeFirst (l pat : List Char) : List Char :=
  if pat = [] then l
  else
    match l with
    | [] => []
    | c :: cs => if leadsWith pat (c :: cs) then (c :: cs).drop pat.length
                 else c :: removeFirst cs pat

/-- String-level first-occurrence removal. -/
def replaceFirst (s pat : String) : String := ⟨removeFirst s.data pat.data⟩

/-! ### Embedded regex tails

A tail matcher consumes the part of a pattern after `(\d+\.?\d*)\s*` and
returns the rest of the input on success. -/

/-- Tail matchers. -/
def MTail : Type := List Char → Option (List Char)

/-- A tail matcher that never lengthens its input. -/
def MonoTail (m : MTail) : Prop :=
  ∀ l r, m l = some r → r.length ≤ l.length

/-- Case-insensitive literal (the literal is given in lower case). -/
def mlit (lit : List Char) : MTail :=
  fun l =>
    match lit, l with
    | [], rest => some rest
    | _ :: _, [] => none
    | p :: ps, c :: cs => if lowerJS c = p then mlit ps cs else none

/-- Optional single character (`X?`), case-insensitive, greedy. -/
def mopt (t : Char) : MTail :=
  fun l =>
    match l with
    | [] => some []
    | c :: cs => if lowerJS c = t then some cs else some (c :: cs)

/-- `\s*`, greedy. -/
def mws : MTail := fun l => some (dropWsL l)

/-- Sequencing of tail matchers. -/
def mseq (a b : MTail) : MTail := fun l => (a l).bind b

/-- Ordered alternation of tail matchers. -/
def malt (a b : MTail) : MTail :=
  fun l =>
    match a l with
    | some r => some r
    | none => b l

theorem monoTail_mlit (lit : List Char) : MonoTail (mlit lit) := by
  induction lit with
  | nil => intro l r h; simp only [mlit] at h; cases h; exact le_refl _
  | cons p ps ih =>
    intro l r h
    cases l with
    | nil => simp [mlit] at h
    | cons c cs =>
      simp only [mlit] at h
      by_cases hc : lowerJS c = p
      · simp only [hc, if_true] at h
        exact Nat.le_succ_of_le (ih cs r h)
      · simp [hc] at h

theorem monoTail_mopt (t : Char) : MonoTail (mopt t) := by
  intro l r h
  cases l with
  | nil => simp only [mopt] at h; cases h; exact le_refl _
  | cons c cs =>
    simp only [mopt] at h
    by_cases hc : lowerJS c = t
    · simp only [hc, if_true] at h; cases h; exact Nat.le_succ _
    · simp only [hc, if_false] at h; cases h; exact le_refl _

theorem monoTail_mws : MonoTail mws := by
  intro l r h
  simp only [mws] at h
  cases h
  exact dropWhile_len_le _ l

theorem monoTail_mseq {a b : MTail} (ha : MonoTail a) (hb : MonoTail b) :
    MonoTail (mseq a b) := by
  intro l r h
  simp only [mseq] at h
  cases hal : a l with
  | none => rw [hal] at h; simp at h
  | some m => rw [hal] at h; exact le_trans (hb m r h) (ha l m hal)

theorem monoTail_malt {a b : MTail} (ha : MonoTail a) (hb : MonoTail b) :
    MonoTail (malt a b) := by
  intro l r h
  simp only [malt] at h
  cases hal : a l with
  | none => rw [hal] at h; exact hb l r h
  | some m =>
    rw [hal] at h
    have hm := Option.some.inj h
    subst hm
    exact ha l m hal

/-- A successful number token strictly shrinks the input. -/
theorem numTokenAt_len (l : List Char) (v : ℚ) (r : List Char)
    (h : numTokenAt l = some (v, r)) : r.length < l.length := by
  have hlen : (l.takeWhile (fun c => isDigitJS c)).length
      + (l.dropWhile (fun c => isDigitJS c)).length = l.length := by
    rw [← List.length_append, List.takeWhile_append_dropWhile]
  simp only [numTokenAt, takeDigits] at h
  split at h
  · exact absurd h (by simp)
  · have hT : 0 < (l.takeWhile (fun c => isDigitJS c)).length := by
      rename_i ht
      exact List.length_pos.mpr ht
    split at h
    · rename_i r2 heq
      have h2 := dropWhile_len_le (fun c => isDigitJS c) r2
      have h1 : (l.dropWhile (fun c => isDigitJS c)).length = r2.length + 1 := by
        rw [heq]; simp
      injection h with hp
      injection hp with hv hr
      subst hr
      omega
    · injection h with hp
      injection hp with hv hr
      subst hr
      omega

/-- One pass of `String.prototype.matchAll` for the patterns
`(\d+\.?\d*)\s*TAIL`: leftmost matches, advancing one character on failure
and to the match end on success; collects the captured numbers. -/
def scanAll (sfx : MTail) (hm : MonoTail sfx) : List Char → List ℚ
  | [] => []
  | c :: cs =>
    match hn : numTokenAt (c :: cs) with
    | some vr =>
      match hs : sfx (dropWsL vr.2) with
      | some r3 => vr.1 :: scanAll sfx hm r3
      | none => scanAll sfx hm cs
    | none => scanAll sfx hm cs
termination_by l => l.length
decreasing_by
  · have h1 := numTokenAt_len _ vr.1 vr.2 (by rw [hn])
    have h2 := dropWhile_len_le (fun d => isWsJS d) vr.2
    have h3 := hm _ _ hs
    simp only [dropWsL] at h3
    omega
  · simp
  · simp

/-! ### The concrete patterns from `constants.ts`

`ABV_ALCOHOL_PATTERN  = /(\d+\.?\d*)\s*(?:Alc|Alcohol)/gi`
`ABV_NOTATION_PATTERN = /(\d+\.?\d*)\s*ABV/gi`
`PROOF_PATTERN        = /(\d+\.?\d*)\s*proof/gi`
`ABV_PERCENTAGE_PATTERN = /(\d+\.?\d*)\s*%/g`
`VOLUME_ML_PATTERN = /(\d+\.?\d*)\s*(?:ml|mL|ML|milliliters?)/gi`
`VOLUME_OZ_PATTERN = /(\d+\.?\d*)\s*(?:fl\.?\s*oz\.?|FL\.?\s*OZ\.?|FLUID\s*OZ\.?|oz\.?|OZ\.?|ounces?)/gi`
`VOLUME_L_PATTERN  = /(\d+\.?\d*)\s*(?:l|L|liters?)/gi`

Case-insensitive duplicate alternatives (`mL`, `ML`, `FL...`, `OZ...`) are
behaviourally identical to their first occurrence and are not repeated. -/

/-- Tail of `ABV_ALCOHOL_PATTERN`. -/
def sfxAlc : MTail := malt (mlit "alc".data) (mlit "alcohol".data)

/-- Tail of `ABV_NOTATION_PATTERN`. -/
def sfxAbv : MTail := mlit "abv".data

/-- Tail of `PROOF_PATTERN`. -/
def sfxProofLit : MTail := mlit "proof".data

/-- Tail of `ABV_PERCENTAGE_PATTERN`. -/
def sfxPercent : MTail := mlit "%".data

/-- Tail of `VOLUME_ML_PATTERN`. -/
def sfxMl : MTail := malt (mlit "ml".data) (mseq (mlit "milliliter".data) (mopt 's'))

/-- Tail of `VOLUME_OZ_PATTERN`. -/
def sfxOz : MTail :=
  malt (mseq (mlit "fl".data) (mseq (mopt '.') (mseq mws (mseq (mlit "oz".data) (mopt '.')))))
    (malt (mseq (mlit "fluid".data) (mseq mws (mseq (mlit "oz".data) (mopt '.'))))
      (malt (mseq (mlit "oz".data) (mopt '.')) (mseq (mlit "ounce".data) (mopt 's'))))

/-- Tail of `VOLUME_L_PATTERN`. -/
def sfxL : MTail := malt (mlit "l".data) (mseq (mlit "liter".data) (mopt 's'))

theorem monoTail_sfxAlc : MonoTail sfxAlc :=
  monoTail_malt (monoTail_mlit _) (monoTail_mlit _)

theorem monoTail_sfxAbv : MonoTail sfxAbv := monoTail_mlit _

theorem monoTail_sfxProofLit : MonoTail sfxProofLit := monoTail_mlit _

theorem monoTail_sfxPercent : MonoTail sfxPercent := monoTail_mlit _

theorem monoTail_sfxMl : MonoTail sfxMl :=
  monoTail_malt (monoTail_mlit _) (monoTail_mseq (monoTail_mlit _) (monoTail_mopt _))

theorem monoTail_sfxOz : MonoTail sfxOz :=
  monoTail_malt
    (monoTail_mseq (monoTail_mlit _) (monoTail_mseq (monoTail_mopt _)
      (monoTail_mseq monoTail_mws (monoTail_mseq (monoTail_mlit _) (monoTail_mopt _)))))
    (monoTail_malt
      (monoTail_mseq (monoTail_mlit _) (monoTail_mseq monoTail_mws
        (monoTail_mseq (monoTail_mlit _) (monoTail_mopt _))))
      (monoTail_malt (monoTail_mseq (monoTail_mlit _) (monoTail_mopt _))
        (monoTail_mseq (monoTail_mlit _) (monoTail_mopt _))))

theorem monoTail_sfxL : MonoTail sfxL :=
  monoTail_malt (monoTail_mlit _) (monoTail_mseq (monoTail_mlit _) (monoTail_mopt _))

/-- `text.matchAll(ABV_ALCOHOL_PATTERN)` captured values. -/
def scanAlc (s : String) : List ℚ := scanAll sfxAlc monoTail_sfxAlc s.data

/-- `text.matchAll(ABV_NOTATION_PATTERN)` captured values. -/
def scanAbv (s : String) : List ℚ := scanAll sfxAbv monoTail_sfxAbv s.data

/-- `text.matchAll(PROOF_PATTERN)` captured values. -/
def scanProofVals (s : String) : List ℚ :=
  scanAll sfxProofLit monoTail_sfxProofLit s.data

/-- `text.matchAll(ABV_PERCENTAGE_PATTERN)` captured values. -/
def scanPercent (s : String) : List ℚ :=
  scanAll sfxPercent monoTail_sfxPercent s.data

/-- `text.matchAll(VOLUME_ML_PATTERN)` captured values. -/
def scanMl (s : String) : List ℚ := scanAll sfxMl monoTail_sfxMl s.data

/-- `text.matchAll(VOLUME_OZ_PATTERN)` captured values. -/
def scanOz (s : String) : List ℚ := scanAll sfxOz monoTail_sfxOz s.data

/-- `text.matchAll(VOLUME_L_PATTERN)` captured values. -/
def scanL (s : String) : List ℚ := scanAll sfxL monoTail_sfxL s.data

/-- `text.matchAll(VOLUME_ML_PATTERN)` started at a carried `lastIndex`:
ES2020 `matchAll` clones the regex but copies its `lastIndex`, so the scan
only sees matches starting at or after that index (none of these patterns
can look before the search start). -/
def scanMlFrom (i : ℕ) (s : String) : List ℚ :=
  scanAll sfxMl monoTail_sfxMl (s.data.drop i)

/-- `text.matchAll(VOLUME_OZ_PATTERN)` started at a carried `lastIndex`. -/
def scanOzFrom (i : ℕ) (s : String) : List ℚ :=
  scanAll sfxOz monoTail_sfxOz (s.data.drop i)

/-- `text.matchAll(VOLUME_L_PATTERN)` started at a carried `lastIndex`. -/
def scanLFrom (i : ℕ) (s : String) : List ℚ :=
  scanAll sfxL monoTail_sfxL (s.data.drop i)

/-! ### Geometry: bounding boxes (`bboxMatching.ts`) -/

/-- A bounding box in pixel coordinates. -/
structure BoundingBox where
  x0 : ℚ
  y0 : ℚ
  x1 : ℚ
  y1 : ℚ
deriving DecidableEq, Repr

/-- JS stable insertion of `x` into a sorted list: `x` goes before the first
element it strictly precedes, so ties keep their original order, exactly the
ES2019 stable `Array.prototype.sort`. -/
def stableIns {α : Type} (before : α → α → Bool) (x : α) : List α → List α
  | [] => [x]
  | y :: ys => if before x y then x :: y :: ys else y :: stableIns before x ys

/-- Stable sort by a strict "comes before" comparator. -/
def stableSortJS {α : Type} (before : α → α → Bool) (l : List α) : List α :=
  l.foldl (fun acc x => stableIns before x acc) []

/-- The `mergeBBoxes` sort comparator: by `y0`, then by `x0`. -/
def bboxBefore (a b : BoundingBox) : Bool :=
  decide (a.y0 < b.y0) || (decide (a.y0 = b.y0) && decide (a.x0 < b.x0))

/-- The merge sweep of `mergeBBoxes`: fold the sorted list, merging the next
box into the accumulated one when it is on the same visual line
(top difference within the threshold) and horizontally adjacent. -/
def mergeSweep (t : ℚ) : BoundingBox → List BoundingBox → List BoundingBox
  | cur, [] => [cur]
  | cur, b :: bs =>
    if jsAbs (b.y0 - cur.y0) ≤ t ∧ b.x0 - cur.x1 ≤ t then
      mergeSweep t
        ⟨jsMin cur.x0 b.x0, jsMin cur.y0 b.y0, jsMax cur.x1 b.x1, jsMax cur.y1 b.y1⟩ bs
    else cur :: mergeSweep t b bs

/-- `mergeBBoxes` from `bboxMatching.ts`. -/
def mergeBBoxes (boxes : List BoundingBox) (t : ℚ) : List BoundingBox :=
  match boxes with
  | [] => []
  | [b] => [b]
  | _ =>
    match stableSortJS bboxBefore boxes with
    | [] => []
    | s :: rest => mergeSweep t s rest

/-- `deduplicateBBoxes`: drop later boxes whose four coordinates already
occurred (the source keys a set by the coordinate string, which identifies
boxes exactly by their coordinates). -/
def dedupAux (seen : List BoundingBox) : List BoundingBox → List BoundingBox
  | [] => []
  | b :: bs =>
    if seen.contains b then dedupAux seen bs
    else b :: dedupAux (b :: seen) bs

/-- `deduplicateBBoxes` from `bboxMatching.ts`. -/
def deduplicateBBoxes (boxes : List BoundingBox) : List BoundingBox :=
  dedupAux [] boxes

/-- `transformBBoxToOriginalOrientation` from `bboxMatching.ts`: map a box
found on the canvas rotated counter-clockwise by `angle` back to the
un-rotated image frame (`imageWidth`/`imageHeight` are the original
dimensions). -/
def transformBBoxToOriginalOrientation (bbox : BoundingBox) (angle : ℤ)
    (imageWidth imageHeight : ℚ) : BoundingBox :=
  if angle = 0 then bbox
  else if angle = 90 then
    ⟨imageWidth - bbox.y1, bbox.x0, imageWidth - bbox.y0, bbox.x1⟩
  else if angle = 180 then
    ⟨imageWidth - bbox.x1, imageHeight - bbox.y1,
     imageWidth - bbox.x0, imageHeight - bbox.y0⟩
  else if angle = 270 then
    ⟨bbox.y0, imageHeight - bbox.x1, bbox.y1, imageHeight - bbox.x0⟩
  else bbox

/-- `transformPrimaryBBoxes` from `textMatching.ts`: the same switch, applied
to a whole list for the primary rotation (identity for 0° or an empty
list). -/
def transformPrimaryBBoxes (bboxes : List BoundingBox) (rotationDegrees : ℤ)
    (imageWidth imageHeight : ℚ) : List BoundingBox :=
  if rotationDegrees = 0 ∨ bboxes = [] then bboxes
  else
    bboxes.map fun bbox =>
      if rotationDegrees = 90 then
        ⟨imageWidth - bbox.y1, bbox.x0, imageWidth - bbox.y0, bbox.x1⟩
      else if rotationDegrees = 180 then
        ⟨imageWidth - bbox.x1, imageHeight - bbox.y1,
         imageWidth - bbox.x0, imageHeight - bbox.y0⟩
      else if rotationDegrees = 270 then
        ⟨bbox.y0, imageHeight - bbox.x1, bbox.y1, imageHeight - bbox.x0⟩
      else bbox

/-! ### The Tesseract result tree

Tesseract.js delivers numeric-keyed objects; `objectToArray` turns each
level into an ordered array, embedded here directly as lists.  A missing
(`undefined`) child collection behaves exactly like an empty one in every
traversal (`continue` versus an empty loop), so it is embedded as `[]`. -/

/-- A recognized word (also the `TextBlock` shape used for extracted word
lists). -/
structure TextBlock where
  text : String
  confidence : ℚ
  bbox : BoundingBox
deriving DecidableEq, Repr

/-- A Tesseract line: own text/confidence/bbox plus its words. -/
structure TLine where
  text : String
  confidence : ℚ
  bbox : BoundingBox
  words : List TextBlock
deriving DecidableEq, Repr

/-- A Tesseract paragraph (only its lines are traversed). -/
structure TPara where
  lines : List TLine
deriving DecidableEq, Repr

/-- A Tesseract block (only its paragraphs are traversed). -/
structure TBlock where
  paragraphs : List TPara
deriving DecidableEq, Repr

/-- A raw Tesseract result (only its block tree is traversed). -/
structure TesseractResult where
  blocks : List TBlock
deriving DecidableEq, Repr

/-- All lines of a result in traversal order. -/
def allLines (t : TesseractResult) : List TLine :=
  (t.blocks.flatMap (fun b => b.paragraphs)).flatMap (fun p => p.lines)

/-- Options of `findMatchingBBoxes`. -/
structure FindOpts where
  minConfidence : ℚ := 70
  preferLarger : Bool := false
  preferTop : Bool := false
  maxResults : Option ℕ := none

/-- A scored bbox candidate. -/
structure Cand where
  bbox : BoundingBox
  score : ℚ
  confidence : ℚ
  size : ℚ
deriving Repr

/-- Box area. -/
def bboxSize (b : BoundingBox) : ℚ := (b.x1 - b.x0) * (b.y1 - b.y0)

/-- Strategy 3 of `findMatchingBBoxes`: first search word of length ≥ 3 that
the OCR word equals (score 80) or, for search words of length ≥ 5, contains
(score 60). -/
def wordCands (minConf : ℚ) (word : TextBlock) : List (List Char) → List Cand
  | [] => []
  | sw :: rest =>
    if sw.length < 3 then wordCands minConf word rest
    else if normalizeChars word.text.data = sw then
      [⟨word.bbox, 80, word.confidence, bboxSize word.bbox⟩]
    else if hasSubL (normalizeChars word.text.data) sw ∧ 5 ≤ sw.length then
      [⟨word.bbox, 60, word.confidence, bboxSize word.bbox⟩]
    else wordCands minConf word rest

/-- Candidates contributed by one line. -/
def lineCands (normalizedSearch : List Char) (searchWords : List (List Char))
    (minConf : ℚ) (line : TLine) : List Cand :=
  let lineText := normalizeChars line.text.data
  if lineText = normalizedSearch then
    [⟨line.bbox, 100, line.confidence, bboxSize line.bbox⟩]
  else if hasSubL lineText normalizedSearch ∧ 1 < searchWords.length then
    [⟨line.bbox, 90, line.confidence, bboxSize line.bbox⟩]
  else
    line.words.flatMap fun w =>
      if w.confidence < minConf then [] else wordCands minConf w searchWords

/-- The candidate sort comparator: score desc, confidence desc, size desc
when `preferLarger`, top coordinate asc when `preferTop`. -/
def candBefore (preferLarger preferTop : Bool) (a b : Cand) : Bool :=
  if a.score ≠ b.score then decide (b.score < a.score)
  else if a.confidence ≠ b.confidence then decide (b.confidence < a.confidence)
  else if preferLarger ∧ a.size ≠ b.size then decide (b.size < a.size)
  else if preferTop ∧ a.bbox.y0 ≠ b.bbox.y0 then decide (a.bbox.y0 < b.bbox.y0)
  else false

/-- `findMatchingBBoxes` from `bboxMatching.ts`. -/
def findMatchingBBoxes (searchText : String) (t : TesseractResult)
    (opts : FindOpts) : List BoundingBox :=
  let normalizedSearch := normalizeChars searchText.data
  let searchWords := splitWsTokens normalizedSearch
  let cands :=
    (allLines t).flatMap (lineCands normalizedSearch searchWords opts.minConfidence)
  let sorted := stableSortJS (candBefore opts.preferLarger opts.preferTop) cands
  let top :=
    match opts.maxResults with
    | some k => sorted.take k
    | none => sorted
  top.map (fun c => c.bbox)

/-- First match end for a `(\d+\.?\d*)\s*TAIL` pattern searching from the
head of `l`, with `pos` the index of `l`'s head in the full string; returns
the index one past the match. -/
def findEndFrom (sfx : MTail) : List Char → ℕ → Option ℕ
  | [], _ => none
  | c :: cs, pos =>
    match numTokenAt (c :: cs) with
    | some vr =>
      match sfx (dropWsL vr.2) with
      | some r3 => some (pos + ((c :: cs).length - r3.length))
      | none => findEndFrom sfx cs (pos + 1)
    | none => findEndFrom sfx cs (pos + 1)

/-- JS `RegExp.prototype.test` on a `/g` regex: search from `lastIndex`,
return the hit flag and the updated `lastIndex` (match end on success, `0`
on failure).  `findPatternBBoxes` calls `test` with the module-level regex
objects, so this state threads through the word traversal of one call (each
call of the embedding starts from `0`). -/
def jsTestG (sfx : MTail) (s : List Char) (lastIndex : ℕ) : Bool × ℕ :=
  if s.length < lastIndex then (false, 0)
  else
    match findEndFrom sfx (s.drop lastIndex) lastIndex with
    | some e => (true, e)
    | none => (false, 0)

/-- All words of a result in traversal order. -/
def allWords (t : TesseractResult) : List TextBlock :=
  (allLines t).flatMap (fun line => line.words)

/-- `findPatternBBoxes` from `bboxMatching.ts`: the boxes of the words on
which the stateful `pattern.test` fires. -/
def findPatternBBoxes (sfx : MTail) (t : TesseractResult) : List BoundingBox :=
  ((allWords t).foldl
    (fun (acc : List BoundingBox × ℕ) w =>
      match jsTestG sfx w.text.data acc.2 with
      | (true, li) => (acc.1 ++ [w.bbox], li)
      | (false, li) => (acc.1, li))
    ([], 0)).1

/-- The `lastIndex` a module-level `/g` pattern carries after one
`findPatternBBoxes` traversal (one `pattern.test` per word, threading the
state; the box accumulator never feeds back into it). -/
def patternLastIndex (sfx : MTail) (t : TesseractResult) : ℕ :=
  (allWords t).foldl (fun li w => (jsTestG sfx w.text.data li).2) 0

/-- The regex number `\d+(?:\.\d+)?` read greedily at the head of the input
(the fractional part needs at least one digit, unlike `\d+\.?\d*`). -/
def numToken2At (l : List Char) : Option (ℚ × List Char) :=
  match takeDigits l with
  | (d1, r1) =>
    if d1 = [] then none
    else
      match r1 with
      | '.' :: r2 =>
        match takeDigits r2 with
        | ([], _) => some ((digitsToNat d1 : ℚ), r1)
        | (d2, r3) =>
          some ((digitsToNat d1 : ℚ) + (digitsToNat d2 : ℚ) / 10 ^ d2.length, r3)
      | _ => some ((digitsToNat d1 : ℚ), r1)

/-- First value of a `word.text.match(/(\d+(?:\.\d+)?)\s*%/)` search. -/
def firstPercentVal : List Char → Option ℚ
  | [] => none
  | c :: cs =>
    match numToken2At (c :: cs) with
    | some vr =>
      match dropWsL vr.2 with
      | '%' :: _ => some vr.1
      | _ => firstPercentVal cs
    | none => firstPercentVal cs

/-- Value of a whole-token number, `text.match(/^(\d+(?:\.\d+)?)$/)`. -/
def wholeNumberVal (l : List Char) : Option ℚ :=
  match numToken2At l with
  | some (v, []) => some v
  | _ => none

/-- One word has an alcohol keyword (`findAlcoholContentBBoxes`). -/
def alcKeywordHit (w : TextBlock) : Bool :=
  let n := ⟨normalizeChars w.text.data⟩
  jsIncludes n "alc" || jsIncludes n "vol" || jsIncludes n "abv" ||
    jsIncludes n "alcohol" || jsIncludes n "proof"

/-- Per-line state of `findAlcoholContentBBoxes`: keyword flag, matching
number flag, and the boxes collected on the line. -/
def alcLineScan (expectedValue : Option ℚ) (line : TLine) :
    Bool × Bool × List BoundingBox :=
  line.words.foldl
    (fun (st : Bool × Bool × List BoundingBox) w =>
      let st :=
        if alcKeywordHit w then (true, st.2.1, st.2.2 ++ [w.bbox]) else st
      match firstPercentVal w.text.data with
      | some v =>
        if (match expectedValue with
            | some e => decide (jsAbs (v - e) ≤ 2)
            | none => false) then
          (st.1, true, st.2.2 ++ [w.bbox])
        else st
      | none =>
        match wholeNumberVal w.text.data with
        | some v =>
          if (match expectedValue with
              | some e => decide (jsAbs (v - e) ≤ 2)
              | none => false) then
            (st.1, true, st.2.2 ++ [w.bbox])
          else st
        | none => st)
    (false, false, [])

/-- `findAlcoholContentBBoxes` from `bboxMatching.ts` (`none` for the
expected value models `NaN`, on which every tolerance test is false). -/
def findAlcoholContentBBoxes (expectedValue : Option ℚ) (t : TesseractResult) :
    List BoundingBox :=
  (allLines t).flatMap fun line =>
    match alcLineScan expectedValue line with
    | (hasKw, hasNum, lineBoxes) =>
      if hasKw ∧ hasNum then lineBoxes
      else if hasKw then lineBoxes
      else []

/-- `findBBoxesAcrossRotations` from `bboxMatching.ts`: search every
rotation attempt, map each hit back to the original frame, deduplicate. -/
def findBBoxesAcrossRotations (searchText : String)
    (allRotationResults : List (ℤ × Option TesseractResult))
    (imageWidth imageHeight : ℚ) (opts : FindOpts) : List BoundingBox :=
  deduplicateBBoxes
    (allRotationResults.flatMap fun rot =>
      match rot.2 with
      | none => []
      | some res =>
        (findMatchingBBoxes searchText res opts).map fun bbox =>
          transformBBoxToOriginalOrientation bbox rot.1 imageWidth imageHeight)

/-! ### Constants (`constants.ts`) -/

/-- `WARNING_REQUIRED_PHRASES`. -/
def WARNING_REQUIRED_PHRASES : List String :=
  ["government warning", "surgeon general", "pregnant",
   "birth defects", "impairs", "health problems"]

/-- `PRODUCT_TYPE_VARIATIONS` in object-literal insertion order (the order
`Object.entries` iterates). -/
def PRODUCT_TYPE_VARIATIONS : List (String × List String) :=
  [("bourbon", ["bourbon", "bourbon whiskey", "kentucky bourbon",
    "straight bourbon", "kentucky straight bourbon"]),
   ("whiskey", ["whisky", "whiskey", "bourbon", "rye", "scotch"]),
   ("vodka", ["vodka", "distilled vodka", "premium vodka"]),
   ("gin", ["gin", "distilled gin", "dry gin", "london dry gin"]),
   ("rum", ["rum", "distilled rum", "white rum", "dark rum"]),
   ("tequila", ["tequila", "añejo", "reposado", "blanco"]),
   ("brandy", ["brandy", "cognac", "armagnac"]),
   ("ipa", ["ipa", "india pale ale", "pale ale"]),
   ("lager", ["lager", "lager beer", "pilsner"]),
   ("ale", ["ale", "pale ale", "amber ale"]),
   ("stout", ["stout", "porter", "imperial stout"]),
   ("wine", ["wine", "red wine", "white wine", "table wine"]),
   ("red wine", ["red wine", "cabernet", "merlot", "pinot noir"]),
   ("white wine", ["white wine", "chardonnay", "sauvignon blanc", "pinot grigio"]),
   ("champagne", ["champagne", "sparkling wine"])]

/-- `DEFAULT_MATCHING_CONFIG.brandName.fuzzyMatchThreshold`. -/
def brandFuzzyMatchThreshold : ℤ := 80

/-- `DEFAULT_MATCHING_CONFIG.brandName.wordMatchThreshold`. -/
def brandWordMatchThreshold : ℚ := 75

/-- `DEFAULT_MATCHING_CONFIG.productType.fuzzyMatchThreshold`. -/
def productFuzzyMatchThreshold : ℤ := 70

/-- `DEFAULT_MATCHING_CONFIG.alcoholContent.exactTolerance`. -/
def alcoholExactTolerance : ℚ := 1 / 2

/-- `DEFAULT_MATCHING_CONFIG.alcoholContent.looseTolerance`. -/
def alcoholLooseTolerance : ℚ := 2

/-- `DEFAULT_MATCHING_CONFIG.netContents.volumeTolerance`. -/
def volumeToleranceCfg : ℚ := 2 / 100

/-- `DEFAULT_MATCHING_CONFIG.governmentWarning.phraseMatchThreshold`. -/
def warningPhraseMatchThreshold : ℚ := 6 / 10

/-- `VOLUME_TO_ML`. -/
def VOLUME_TO_ML : List (String × ℚ) :=
  [("mL", 1), ("ml", 1), ("ML", 1),
   ("oz", 295735 / 10000), ("OZ", 295735 / 10000),
   ("fl oz", 295735 / 10000), ("FL OZ", 295735 / 10000),
   ("L", 1000), ("l", 1000)]

/-- `convertToML`: `value * (VOLUME_TO_ML[unit] || VOLUME_TO_ML["mL"])`
(all table factors are non-zero, so `||` is exactly the missing-key
fallback). -/
def convertToML (value : ℚ) (unit : String) : ℚ :=
  value * (((VOLUME_TO_ML.find? (fun p => p.1 == unit)).map Prod.snd).getD 1)

/-! ### Field verification records -/

/-- A field status. -/
inductive Status where
  | matched
  | mismatch
  | notFound
deriving DecidableEq, Repr

/-- An overall verification status. -/
inductive Overall where
  | pass
  | fail
deriving DecidableEq, Repr

/-- A `FieldVerification` record; `found` and `bboxes` model the optional
properties. -/
structure FieldVerification where
  field : String
  status : Status
  expected : String
  found : Option String := none
  confidence : ℤ
  message : String
  bboxes : Option (List BoundingBox) := none
deriving DecidableEq, Repr

/-- `bboxes.length > 0 ? bboxes : undefined`. -/
def optBB (l : List BoundingBox) : Option (List BoundingBox) :=
  if l = [] then none else some l

/-- `String(n)` for a parse result where `none` is `NaN`. -/
def numOrNaN (e : Option ℚ) : String :=
  match e with
  | some v => numToStr v
  | none => "NaN"

/-- Lower-case a whole string. -/
def lowerStr (s : String) : String := ⟨s.data.map lowerJS⟩

/-- The matched substring of the first case-insensitive occurrence of `pat`
in `text` (JS `text.match(new RegExp(word, "i"))[0]`). -/
def findCISub : List Char → List Char → Option (List Char)
  | [], pat => if pat = [] then some [] else none
  | c :: cs, pat =>
    if leadsWith (pat.map lowerJS) ((c :: cs).take pat.length |>.map lowerJS) ∧
        pat.length ≤ (c :: cs).length then
      some ((c :: cs).take pat.length)
    else findCISub cs pat

/-- `extractMatch` from `textMatching.ts`: first normalized word of the
expected text found (case-insensitively) in the OCR text, as it appears
there; the expected text itself when none is found.  The source splits with
`normalized.split(/\s+/)` and no nonempty filter, so an expected value that
normalizes to an empty or leading-whitespace string contributes an empty
word whose empty-pattern regex matches immediately, returning `""`. -/
def extractMatch (ocrText expected : String) : String :=
  go (jsSplitWs (normalizeChars expected.data) [])
where
  go : List (List Char) → String
    | [] => expected
    | w :: ws =>
      match findCISub ocrText.data w with
      | some m => ⟨m⟩
      | none => go ws

/-- A successful strict number token shrinks the input. -/
theorem numToken2At_len (l : List Char) (v : ℚ) (r : List Char)
    (h : numToken2At l = some (v, r)) : r.length < l.length := by
  have hlen : (l.takeWhile (fun c => isDigitJS c)).length
      + (l.dropWhile (fun c => isDigitJS c)).length = l.length := by
    rw [← List.length_append, List.takeWhile_append_dropWhile]
  simp only [numToken2At, takeDigits] at h
  split at h
  · exact absurd h (by simp)
  · have hT : 0 < (l.takeWhile (fun c => isDigitJS c)).length := by
      rename_i ht
      exact List.length_pos.mpr ht
    split at h
    · rename_i r2 heq
      have h1 : (l.dropWhile (fun c => isDigitJS c)).length = r2.length + 1 := by
        rw [heq]; simp
      split at h
      · injection h with hp
        injection hp with hv hr
        subst hr
        omega
      · rename_i a b hnil heq
        have h2 : r2.dropWhile (fun c => isDigitJS c) = b := by
          have := congrArg Prod.snd heq
          simpa [takeDigits] using this
        have h3 := dropWhile_len_le (fun c => isDigitJS c) r2
        rw [h2] at h3
        injection h with hp
        injection hp with hv hr
        subst hr
        omega
    · injection h with hp
      injection hp with hv hr
      subst hr
      omega

/-- `matchAll` scanning for `(\d+(?:\.\d+)?)\s*%` (the in-word percentage
pattern of the block-level alcohol matcher). -/
def scanAllStrict (sfx : MTail) (hm : MonoTail sfx) : List Char → List ℚ
  | [] => []
  | c :: cs =>
    match hn : numToken2At (c :: cs) with
    | some vr =>
      match hs : sfx (dropWsL vr.2) with
      | some r3 => vr.1 :: scanAllStrict sfx hm r3
      | none => scanAllStrict sfx hm cs
    | none => scanAllStrict sfx hm cs
termination_by l => l.length
decreasing_by
  · have h1 := numToken2At_len _ vr.1 vr.2 (by rw [hn])
    have h2 := dropWhile_len_le (fun d => isWsJS d) vr.2
    have h3 := hm _ _ hs
    simp only [dropWsL] at h3
    omega
  · simp
  · simp

/-- All `(\d+(?:\.\d+)?)\s*%` captures of a word text. -/
def scanPercentStrict (s : String) : List ℚ :=
  scanAllStrict sfxPercent monoTail_sfxPercent s.data

/-! ### Field matchers (`textMatching.ts`) -/

/-- `matchBrandName`. -/
def matchBrandName (expected ocrText : String)
    (rawTesseract : Option TesseractResult := none)
    (rotationDegrees : ℤ := 0) (imageWidth : ℚ := 0) (imageHeight : ℚ := 0) :
    FieldVerification :=
  let normalizedExpected := normalizeText expected
  let normalizedOCR := normalizeText ocrText
  let bboxes0 :=
    match rawTesseract with
    | some r => findMatchingBBoxes expected r
        { minConfidence := 75, preferLarger := true, preferTop := true,
          maxResults := some 2 }
    | none => []
  let bboxes := transformPrimaryBBoxes
    (deduplicateBBoxes (mergeBBoxes bboxes0 10)) rotationDegrees
    imageWidth imageHeight
  if jsIncludes normalizedOCR normalizedExpected then
    { field := "brandName", status := .matched, expected := expected,
      found := some (extractMatch ocrText expected), confidence := 100,
      message := "Brand name verified", bboxes := optBB bboxes }
  else if brandFuzzyMatchThreshold ≤ similarityScore normalizedExpected normalizedOCR then
    { field := "brandName", status := .matched, expected := expected,
      found := some (extractMatch ocrText expected),
      confidence := similarityScore normalizedExpected normalizedOCR,
      message := "Brand name verified", bboxes := optBB bboxes }
  else
    let words := (splitWsTokens normalizedExpected.data).filter fun w => 2 < w.length
    let matchedWords := words.filter fun w => hasSubL normalizedOCR.data w
    let wordMatchRate : ℚ :=
      if words.length ≠ 0 then ((matchedWords.length : ℚ) / words.length) * 100 else 0
    if brandWordMatchThreshold ≤ wordMatchRate then
      { field := "brandName", status := .matched, expected := expected,
        found := some (String.intercalate " " (matchedWords.map fun w => ⟨w⟩)),
        confidence := jsRound wordMatchRate,
        message := "Brand name verified", bboxes := optBB bboxes }
    else
      { field := "brandName", status := .notFound, expected := expected,
        confidence := 0, message := "Brand name not detected" }

/-- `getProductTypeVariations`. -/
def getProductTypeVariations (productType : String) : List String :=
  let normalized := normalizeText productType
  match PRODUCT_TYPE_VARIATIONS.find? (fun p => jsIncludes normalized p.1) with
  | some p => p.2
  | none => [normalized]

/-- First table variation contained in the normalized OCR text. -/
def productVariationHit (normalizedOCR : String) : List String → Option String
  | [] => none
  | v :: vs =>
    if jsIncludes normalizedOCR v then some v else productVariationHit normalizedOCR vs

/-- `matchProductType`. -/
def matchProductType (expected ocrText : String)
    (rawTesseract : Option TesseractResult := none)
    (rotationDegrees : ℤ := 0) (imageWidth : ℚ := 0) (imageHeight : ℚ := 0) :
    FieldVerification :=
  let normalizedExpected := normalizeText expected
  let normalizedOCR := normalizeText ocrText
  let bboxes0 :=
    match rawTesseract with
    | some r => findMatchingBBoxes expected r
        { minConfidence := 70, preferLarger := true, maxResults := some 2 }
    | none => []
  let bboxes := transformPrimaryBBoxes
    (deduplicateBBoxes (mergeBBoxes bboxes0 10)) rotationDegrees
    imageWidth imageHeight
  if jsIncludes normalizedOCR normalizedExpected then
    { field := "productType", status := .matched, expected := expected,
      found := some (extractMatch ocrText expected), confidence := 100,
      message := "Product type verified", bboxes := optBB bboxes }
  else if jsIncludes normalizedExpected ⟨normalizedOCR.data.take 50⟩ then
    { field := "productType", status := .matched, expected := expected,
      found := some (extractMatch ocrText expected), confidence := 95,
      message := "Product type verified", bboxes := optBB bboxes }
  else
    match productVariationHit normalizedOCR (getProductTypeVariations normalizedExpected) with
    | some variation =>
      let variationBboxes0 :=
        match rawTesseract with
        | some r => findMatchingBBoxes variation r
            { minConfidence := 70, preferLarger := true, maxResults := some 2 }
        | none => []
      let variationBboxes := transformPrimaryBBoxes
        (deduplicateBBoxes (mergeBBoxes variationBboxes0 10)) rotationDegrees
        imageWidth imageHeight
      { field := "productType", status := .matched, expected := expected,
        found := some variation, confidence := 90,
        message := "Product type verified", bboxes := optBB variationBboxes }
    | none =>
      if productFuzzyMatchThreshold ≤ similarityScore normalizedExpected normalizedOCR then
        { field := "productType", status := .matched, expected := expected,
          found := some (extractMatch ocrText expected),
          confidence := similarityScore normalizedExpected normalizedOCR,
          message := "Product type verified", bboxes := optBB bboxes }
      else
        { field := "productType", status := .notFound, expected := expected,
          confidence := 0, message := "Product type not detected" }

/-- Candidate window of the block-level alcohol matcher: indices within five
words of the keyword index `k`. -/
def alcWindow (words : List TextBlock) (k : ℕ) : List (ℕ × TextBlock) :=
  words.enum.filter fun p => k ≤ p.1 + 5 ∧ p.1 ≤ k + 5

/-- Candidate numbers (value, word confidence) contributed by one window
word in `matchAlcoholContentFromBlocks`: `X% ALC/VOL` and `X% ABV` hits in
`[0.5, 95]`, then standalone percentages and bare numbers in `[0.5, 20]`. -/
def alcWordCands (w : TextBlock) : List (ℚ × ℚ) :=
  ((scanAlc w.text).filter fun n => decide (1 / 2 ≤ n ∧ n ≤ 95)).map
      (fun n => (n, w.confidence))
    ++ ((scanAbv w.text).filter fun n => decide (1 / 2 ≤ n ∧ n ≤ 95)).map
      (fun n => (n, w.confidence))
    ++ ((scanPercentStrict w.text).filter fun n => decide (1 / 2 ≤ n ∧ n ≤ 20)).map
      (fun n => (n, w.confidence))
    ++ (match wholeNumberVal w.text.data with
        | some n => if 1 / 2 ≤ n ∧ n ≤ 20 then [(n, w.confidence)] else []
        | none => [])

/-- A word contains an alcohol keyword (`alc`, `vol`, `abv`, `alcohol`). -/
def alcBlockKeyword (w : TextBlock) : Bool :=
  let t := lowerStr w.text
  jsIncludes t "alc" || jsIncludes t "vol" || jsIncludes t "abv" ||
    jsIncludes t "alcohol"

/-- `|candidate - expected| ≤ tol`, false on `NaN` (`none`). -/
def withinTol (expectedNum : Option ℚ) (tol n : ℚ) : Bool :=
  match expectedNum with
  | some e => decide (jsAbs (n - e) ≤ tol)
  | none => false

/-- The keyword indices of `matchAlcoholContentFromBlocks`. -/
def alcKeywordIdxs (words : List TextBlock) : List ℕ :=
  (words.enum.filter fun p => alcBlockKeyword p.2).map (fun p => p.1)

/-- All candidate numbers of `matchAlcoholContentFromBlocks`, one window per
keyword hit (duplicates across overlapping windows included, as in the
source). -/
def blockCandidates (words : List TextBlock) : List (ℚ × ℚ) :=
  (alcKeywordIdxs words).flatMap fun k =>
    (alcWindow words k).flatMap fun p => alcWordCands p.2

/-- The candidates sorted by confidence, descending (stable). -/
def sortedBlockCandidates (words : List TextBlock) : List (ℚ × ℚ) :=
  stableSortJS (fun a b : ℚ × ℚ => decide (b.2 < a.2)) (blockCandidates words)

/-- `matchAlcoholContentFromBlocks` from `textMatching.ts`. -/
def matchAlcoholContentFromBlocks (expectedNum : Option ℚ)
    (words : List TextBlock) (tolerance looseTolerance : ℚ) :
    Option FieldVerification :=
  if alcKeywordIdxs words = [] then none
  else
    let sorted := sortedBlockCandidates words
    match sorted.find? (fun c => withinTol expectedNum tolerance c.1) with
    | some c => some
        { field := "alcoholContent", status := .matched,
          expected := numOrNaN expectedNum ++ "%",
          found := some (numToStr c.1 ++ "%"), confidence := jsRound c.2,
          message := "Alcohol content verified" }
    | none =>
      match sorted.find? (fun c => withinTol expectedNum looseTolerance c.1) with
      | some c => some
          { field := "alcoholContent", status := .mismatch,
            expected := numOrNaN expectedNum ++ "%",
            found := some (numToStr c.1 ++ "%"), confidence := jsRound c.2,
            message := "Alcohol content discrepancy detected" }
      | none =>
        match sorted with
        | best :: _ => some
            { field := "alcoholContent", status := .mismatch,
              expected := numOrNaN expectedNum ++ "%",
              found := some (numToStr best.1 ++ "%"), confidence := jsRound best.2,
              message := "Alcohol content does not match" }
        | [] => none

/-- The ranking of an alcohol-content outcome used to state the tolerance
monotonicity: full match above reported near-miss above zero-confidence
mismatch / not-found. -/
def statusRank (r : FieldVerification) : ℕ :=
  if r.status = .matched then 2 else if 0 < r.confidence then 1 else 0

/-- The `ALC/VOL` candidates of the text path (range-filtered). -/
def alcVolCands (ocrText : String) : List ℚ :=
  (scanAlc ocrText).filter fun n => decide (1 / 2 ≤ n ∧ n ≤ 95)

/-- The `ABV` candidates of the text path (range-filtered). -/
def abvCands (ocrText : String) : List ℚ :=
  (scanAbv ocrText).filter fun n => decide (1 / 2 ≤ n ∧ n ≤ 95)

/-- The proof-derived candidates of the text path (`ABV = proof / 2`,
range-filtered after halving). -/
def proofCands (ocrText : String) : List ℚ :=
  ((scanProofVals ocrText).map fun p => p / 2).filter fun n =>
    decide (1 / 2 ≤ n ∧ n ≤ 95)

/-- The generic percentage candidates of the text path (stricter range). -/
def percentageCands (ocrText : String) : List ℚ :=
  (scanPercent ocrText).filter fun n => decide (1 / 2 ≤ n ∧ n ≤ 20)

/-- The text-path decision cascade of `matchAlcoholContent`, over the four
extracted candidate lists. -/
def alcoholTextDecide (expectedNum : Option ℚ) (bb : Option (List BoundingBox))
    (alcVol abv proofs pcts : List ℚ) : FieldVerification :=
  let expectedStr := numOrNaN expectedNum ++ "%"
  let verified : ℚ → FieldVerification := fun v =>
    { field := "alcoholContent", status := .matched, expected := expectedStr,
      found := some (numToStr v ++ "%"), confidence := 100,
      message := "Alcohol content verified", bboxes := bb }
  let reportMismatch : ℚ → FieldVerification := fun v =>
    { field := "alcoholContent", status := .mismatch, expected := expectedStr,
      found := some (numToStr v ++ "%"), confidence := 0,
      message := "Alcohol content does not match", bboxes := bb }
  match alcVol.find? (withinTol expectedNum alcoholExactTolerance) with
  | some v => verified v
  | none =>
  match abv.find? (withinTol expectedNum alcoholExactTolerance) with
  | some v => verified v
  | none =>
  match proofs.find? (withinTol expectedNum alcoholExactTolerance) with
  | some v => verified v
  | none =>
  let allMatches := alcVol ++ abv ++ proofs ++ pcts
  match allMatches.find? (withinTol expectedNum alcoholExactTolerance) with
  | some v => verified v
  | none =>
  match allMatches.find? (withinTol expectedNum alcoholLooseTolerance) with
  | some v =>
    { field := "alcoholContent", status := .mismatch, expected := expectedStr,
      found := some (numToStr v ++ "%"), confidence := 50,
      message := "Alcohol content discrepancy detected", bboxes := bb }
  | none =>
  match alcVol with
  | v :: _ => reportMismatch v
  | [] =>
  match abv with
  | v :: _ => reportMismatch v
  | [] =>
  match allMatches with
  | v :: _ => reportMismatch v
  | [] =>
    { field := "alcoholContent", status := .notFound, expected := expectedStr,
      confidence := 0, message := "Alcohol content not detected" }

/-- `matchAlcoholContent`. -/
def matchAlcoholContent (expected ocrText : String)
    (blocks : List TextBlock := [])
    (rawTesseract : Option TesseractResult := none)
    (rotationDegrees : ℤ := 0) (imageWidth : ℚ := 0) (imageHeight : ℚ := 0) :
    FieldVerification :=
  let expectedNum := parseFloatOpt (replaceFirst expected "%")
  let bboxes0 :=
    match rawTesseract with
    | some r => findAlcoholContentBBoxes expectedNum r
    | none => []
  let bboxes := transformPrimaryBBoxes
    (deduplicateBBoxes (mergeBBoxes bboxes0 10)) rotationDegrees
    imageWidth imageHeight
  let blockResult :=
    if blocks ≠ [] then
      matchAlcoholContentFromBlocks expectedNum blocks
        alcoholExactTolerance alcoholLooseTolerance
    else none
  match blockResult with
  | some r => { r with bboxes := optBB bboxes }
  | none =>
    alcoholTextDecide expectedNum (optBB bboxes)
      (alcVolCands ocrText) (abvCands ocrText) (proofCands ocrText)
      (percentageCands ocrText)

/-- `parseVolume`: first match of `/(\d+\.?\d*)\s*([a-zA-Z\s]+)/`, returning
the number and the second capture (greedy `\s*` hands all-whitespace unit
runs back a single final whitespace character). -/
def parseVolumeScan : List Char → Option (ℚ × List Char)
  | [] => none
  | c :: cs =>
    match numTokenAt (c :: cs) with
    | some vr =>
      let run := vr.2.takeWhile fun d => isAlphaJS d || isWsJS d
      if run = [] then parseVolumeScan cs
      else
        match run.dropWhile (fun d => isWsJS d) with
        | [] => some (vr.1, [run.reverse.headD ' '])
        | ds => some (vr.1, ds)
    | none => parseVolumeScan cs

/-- `parseVolume` from `textMatching.ts`. -/
def parseVolume (s : String) : Option (ℚ × String) :=
  (parseVolumeScan s.data).map fun vr =>
    let unit : String := ⟨(trimJS vr.2).map lowerJS⟩
    if jsIncludes unit "ml" then (vr.1, "mL")
    else if jsIncludes unit "oz" then (vr.1, "oz")
    else if unit = "l" then (vr.1, "L")
    else (vr.1, unit)

/-- The volume tokens extracted from the OCR text by `matchNetContents`, in
pattern order (mL, then oz, then L).  The three module-level `/g` volume
patterns are `pattern.test`ed against every OCR word by `findPatternBBoxes`
first when `rawTesseract` is present, which leaves each pattern's
`lastIndex` behind; the subsequent `ocrText.matchAll` copies that
`lastIndex` into its clone, so each extraction scan starts there (at `0`,
the fresh module state, when `rawTesseract` is absent). -/
def netVols (rawTesseract : Option TesseractResult) (ocrText : String) :
    List (ℚ × String) :=
  let iMl := match rawTesseract with
    | some r => patternLastIndex sfxMl r
    | none => 0
  let iOz := match rawTesseract with
    | some r => patternLastIndex sfxOz r
    | none => 0
  let iL := match rawTesseract with
    | some r => patternLastIndex sfxL r
    | none => 0
  (scanMlFrom iMl ocrText).map (fun v => (v, "mL"))
    ++ (scanOzFrom iOz ocrText).map (fun v => (v, "oz"))
    ++ (scanLFrom iL ocrText).map (fun v => (v, "L"))

/-- `matchNetContents`. -/
def matchNetContents (expected ocrText : String)
    (rawTesseract : Option TesseractResult := none)
    (rotationDegrees : ℤ := 0) (imageWidth : ℚ := 0) (imageHeight : ℚ := 0) :
    FieldVerification :=
  match parseVolume expected with
  | none =>
    { field := "netContents", status := .notFound, expected := expected,
      confidence := 0, message := "Invalid volume format" }
  | some ep =>
    let bboxes :=
      match rawTesseract with
      | some r =>
        transformPrimaryBBoxes
          (deduplicateBBoxes (mergeBBoxes
            (findPatternBBoxes sfxMl r ++ findPatternBBoxes sfxOz r
              ++ findPatternBBoxes sfxL r) 10))
          rotationDegrees imageWidth imageHeight
      | none => []
    let expectedML := convertToML ep.1 ep.2
    let vols := netVols rawTesseract ocrText
    match vols.find? (fun f =>
        decide (jsAbs (expectedML - convertToML f.1 f.2) ≤ expectedML * volumeToleranceCfg)) with
    | some f =>
      { field := "netContents", status := .matched, expected := expected,
        found := some (numToStr f.1 ++ " " ++ f.2), confidence := 100,
        message := "Net contents verified", bboxes := optBB bboxes }
    | none =>
      match vols with
      | closest :: _ =>
        { field := "netContents", status := .mismatch, expected := expected,
          found := some (numToStr closest.1 ++ " " ++ closest.2), confidence := 0,
          message := "Net contents does not match", bboxes := optBB bboxes }
      | [] =>
        { field := "netContents", status := .notFound, expected := expected,
          confidence := 0, message := "Net contents not detected" }

/-- A one-word Tesseract result whose single word `750ml` hits the mL
volume pattern, leaving that pattern's `lastIndex` at 5 for the
extraction scan that follows. -/
def volLeakRaw : TesseractResult :=
  ⟨[⟨[⟨[⟨"750ml", 90, ⟨0, 0, 10, 10⟩,
    [⟨"750ml", 90, ⟨0, 0, 10, 10⟩⟩]⟩]⟩]⟩]⟩

/-- The keyword list `matchGovernmentWarning` highlights. -/
def warningKeywords : List String :=
  ["GOVERNMENT WARNING", "WARNING", "SURGEON GENERAL", "PREGNANT",
   "BEVERAGE", "CONSUMPTION", "ALCOHOLIC"]

/-- The phrases of `WARNING_REQUIRED_PHRASES` found in the normalized OCR
text. -/
def foundPhrases (ocrText : String) : List String :=
  WARNING_REQUIRED_PHRASES.filter fun phrase =>
    jsIncludes (normalizeText ocrText) (normalizeText phrase)

/-- `matchGovernmentWarning`. -/
def matchGovernmentWarning (ocrText : String)
    (rawTesseract : Option TesseractResult := none)
    (allRotations : Option (List (ℤ × Option TesseractResult)) := none)
    (imageWidth : ℚ := 0) (imageHeight : ℚ := 0) : FieldVerification :=
  let phrases := foundPhrases ocrText
  let bboxes0 :=
    match allRotations with
    | some rots =>
      if 0 < rots.length ∧ 0 < imageWidth ∧ 0 < imageHeight then
        warningKeywords.flatMap fun kw =>
          findBBoxesAcrossRotations kw rots imageWidth imageHeight
            { minConfidence := 55, maxResults := some 8 }
      else
        match rawTesseract with
        | some r => warningKeywords.flatMap fun kw =>
            findMatchingBBoxes kw r { minConfidence := 60, maxResults := some 5 }
        | none => []
    | none =>
      match rawTesseract with
      | some r => warningKeywords.flatMap fun kw =>
          findMatchingBBoxes kw r { minConfidence := 60, maxResults := some 5 }
      | none => []
  let bboxes := deduplicateBBoxes (mergeBBoxes bboxes0 20)
  let matchRate : ℚ :=
    ((phrases.length : ℚ) / WARNING_REQUIRED_PHRASES.length) * 100
  if warningPhraseMatchThreshold * 100 ≤ matchRate then
    { field := "governmentWarning", status := .matched,
      expected := "GOVERNMENT WARNING", found := some "GOVERNMENT WARNING",
      confidence := jsRound matchRate,
      message := "Required health warning present", bboxes := optBB bboxes }
  else if 0 < phrases.length then
    { field := "governmentWarning", status := .mismatch,
      expected := "GOVERNMENT WARNING",
      found := some "Partial warning text detected",
      confidence := jsRound matchRate,
      message := "Health warning text incomplete or illegible",
      bboxes := optBB bboxes }
  else
    { field := "governmentWarning", status := .notFound,
      expected := "GOVERNMENT WARNING", confidence := 0,
      message := "Required health warning not found" }

/-! ### Aggregation (`compareFields`, `determineOverallStatus`) -/

/-- The required field names of `determineOverallStatus`. -/
def requiredFieldNames : List String :=
  ["brandName", "productType", "alcoholContent"]

/-- `determineOverallStatus`: fail as soon as a required-named field is not
a match, else pass. -/
def determineOverallStatus (fields : List FieldVerification) : Overall :=
  if fields.any (fun f => requiredFieldNames.contains f.field
      && decide (f.status ≠ Status.matched)) then .fail
  else .pass

/-- The form data consumed by `compareFields`. -/
structure LabelFormData where
  brandName : String
  productType : String
  alcoholContent : String
  netContents : Option String := none
deriving Repr

/-- JS truthiness of the optional `netContents` string. -/
def jsTruthy (o : Option String) : Bool :=
  match o with
  | some s => s ≠ ""
  | none => false

/-- The OCR result argument of `compareFields`.  The source stores the
primary rotation as radians (`angle·π/180`) and converts back with
`Math.round(radians·180/π)`; the composition is the identity on the integer
angles the pipeline produces, so the model carries degrees directly (with
`none` for the absent/zero property, both of which yield 0°). -/
structure OCRInputModel where
  text : String
  blocks : List TextBlock := []
  rawTesseractResult : Option TesseractResult := none
  allRotationResults : Option (List (ℤ × Option TesseractResult)) := none
  imageWidth : Option ℚ := none
  imageHeight : Option ℚ := none
  rotationAppliedDegrees : Option ℤ := none

/-- A `VerificationResult` (the processing time is stamped later by the API
route and plays no role here). -/
structure VerificationResult where
  overallStatus : Overall
  fields : List FieldVerification
  rawOCRText : String
  processingTime : ℚ := 0
deriving Repr

/-- `compareFields` from `textMatching.ts`. -/
def compareFields (formData : LabelFormData) (ocr : OCRInputModel) :
    VerificationResult :=
  let ocrText := ocr.text
  let w := ocr.imageWidth.getD 0
  let h := ocr.imageHeight.getD 0
  let deg := ocr.rotationAppliedDegrees.getD 0
  let fields :=
    [matchBrandName formData.brandName ocrText ocr.rawTesseractResult deg w h,
     matchProductType formData.productType ocrText ocr.rawTesseractResult deg w h,
     matchAlcoholContent formData.alcoholContent ocrText ocr.blocks
       ocr.rawTesseractResult deg w h]
    ++ (if jsTruthy formData.netContents then
          [matchNetContents (formData.netContents.getD "") ocrText
            ocr.rawTesseractResult deg w h]
        else [])
    ++ [matchGovernmentWarning ocrText ocr.rawTesseractResult
          ocr.allRotationResults w h]
  { overallStatus := determineOverallStatus fields, fields := fields,
    rawOCRText := ocrText }

/-! ### Orientation scoring and primary-rotation selection
(`ocr-server.ts`, `ocr-core.ts`) -/

/-- One rotation attempt. -/
structure RotationAttempt where
  angle : ℤ
  text : String
  blocks : List TextBlock
  confidence : ℚ
  wordCount : ℕ
  rawResult : Option TesseractResult := none
deriving DecidableEq, Repr

/-- `word.replace(/[^\w]/g, "")`. -/
def cleanTok (tok : List Char) : List Char := tok.filter fun c => isWordCharJS c

/-- `/^[a-zA-Z]+$/` on the cleaned token. -/
def tokIsEnglish (clean : List Char) : Bool :=
  clean ≠ [] && clean.all fun c => isAlphaJS c

/-- `/^[a-zA-Z0-9]+$/` on the cleaned token (underscore not included). -/
def tokIsAlnum (clean : List Char) : Bool :=
  clean ≠ [] && clean.all fun c => isAlphaJS c || isDigitJS c

/-- `/^[0-9]+$/` on the cleaned token. -/
def tokIsNumeric (clean : List Char) : Bool :=
  clean ≠ [] && clean.all fun c => isDigitJS c

/-- `/^\d+%$/` on the raw token. -/
def tokIsPercentage (tok : List Char) : Bool :=
  match takeDigits tok with
  | (d, r) => d ≠ [] && r = ['%']

/-- `/^\d+(\.\d+)?\s*(ml|mL|oz|fl\.?\s*oz|L|l)$/i` on the raw token: a
number followed (to the very end) by one of the unit alternatives. -/
def tokIsVolume (tok : List Char) : Bool :=
  match numToken2At tok with
  | some vr =>
    let r := dropWsL vr.2
    (mlit "ml".data r = some []) || (mlit "oz".data r = some []) ||
      (mseq (mlit "fl".data) (mseq (mopt '.') (mseq mws (mlit "oz".data))) r
        = some []) ||
      (mlit "l".data r = some [])
  | none => false

/-- `/^[bcdefghjklmnopqrstuvwxyz]{1,2}$/i` — one or two letters from the
source's character class (every letter except `a` and `i`). -/
def tokIsConsonantRun (clean : List Char) : Bool :=
  (clean.length = 1 || clean.length = 2) &&
    clean.all fun c => "bcdefghjklmnopqrstuvwxyz".data.contains (lowerJS c)

/-- `/^[aeiou]{1,2}$/i`. -/
def tokIsVowelRun (clean : List Char) : Bool :=
  (clean.length = 1 || clean.length = 2) &&
    clean.all fun c => "aeiou".data.contains (lowerJS c)

/-- `/^[^a-zA-Z0-9]*$/` on the cleaned token (all underscores once
cleaned; the empty case is unreachable here because empty cleans are
skipped first). -/
def tokNoAlnum (clean : List Char) : Bool :=
  clean.all fun c => !(isAlphaJS c || isDigitJS c)

/-- The `validWordCount` branch condition of `calculatePatternScore`
(tokens whose clean is empty are skipped by `continue`). -/
def tokCountsValid (tok : List Char) : Bool :=
  cleanTok tok ≠ [] &&
    (tokIsEnglish (cleanTok tok) || tokIsAlnum (cleanTok tok) ||
      tokIsNumeric (cleanTok tok) || tokIsPercentage tok || tokIsVolume tok)

/-- The `noiseCount` branch condition (`else if (isNoise)`). -/
def tokCountsNoise (tok : List Char) : Bool :=
  cleanTok tok ≠ [] && !tokCountsValid tok &&
    (tokNoAlnum (cleanTok tok) || tokIsConsonantRun (cleanTok tok) ||
      tokIsVowelRun (cleanTok tok))

/-- The counting loop of `calculatePatternScore`. -/
def patternCounts (toks : List (List Char)) : ℕ × ℕ :=
  toks.foldl
    (fun (st : ℕ × ℕ) tok =>
      if cleanTok tok = [] then st
      else if tokCountsValid tok then (st.1 + 1, st.2)
      else if tokCountsNoise tok then (st.1, st.2 + 1)
      else st)
    (0, 0)

/-- Average confidence of a word-block list (0 for the empty list, which
the caller rules out). -/
def avgBlockConfidence (blocks : List TextBlock) : ℚ :=
  if blocks.length = 0 then 0
  else (blocks.map fun b => b.confidence).sum / blocks.length

/-- `calculatePatternScore` from `ocr-server.ts`. -/
def calculatePatternScore (text : String) (blocks : List TextBlock) : ℚ :=
  if trimJS text.data = [] ∨ blocks = [] then 0
  else
    let words := splitWsTokens text.data
    if words = [] then 0
    else
      let counts := patternCounts words
      let validFrac : ℚ := (counts.1 : ℚ) / words.length
      let noiseFrac : ℚ := (counts.2 : ℚ) / words.length
      let base := validFrac * 10 - noiseFrac * 5
      let avgConfidence := avgBlockConfidence blocks
      let withBonus :=
        if 7 / 10 < validFrac ∧ 60 < avgConfidence then base + 5 else base
      let withPenalty :=
        if avgConfidence < 30 then withBonus - 10 else withBonus
      jsMax (-10) (jsMin 20 withPenalty)

/-- `calculateOrientationScore` from `ocr-server.ts`. -/
def calculateOrientationScore (a : RotationAttempt) : ℚ :=
  (a.wordCount : ℚ) * (a.confidence / 100) + calculatePatternScore a.text a.blocks

/-- One step of the server-side primary-attempt `reduce`: a higher score
wins, a score tie falls back to higher confidence, otherwise the earlier
attempt is kept. -/
def selStep (best cur : RotationAttempt × ℚ) : RotationAttempt × ℚ :=
  if best.2 < cur.2 then cur
  else if cur.2 = best.2 then
    if best.1.confidence < cur.1.confidence then cur else best
  else best

/-- The primary-attempt `reduce` of `ServerOCRProcessor.processWithRotations`:
higher score wins, score ties fall back to higher confidence. -/
def selectPrimaryServer (attempts : List RotationAttempt) :
    Option RotationAttempt :=
  match attempts.map (fun a => (a, calculateOrientationScore a)) with
  | [] => none
  | s :: rest => some (rest.foldl selStep s).1

/-- One step of the core primary-attempt `reduce` (`ocr-core.ts`): most
words wins, first on ties. -/
def coreStep (best cur : RotationAttempt) : RotationAttempt :=
  if best.wordCount < cur.wordCount then cur else best

/-- The primary-attempt `reduce` of `OCRProcessor.processWithRotations`
(`ocr-core.ts`): the attempt with the most words, first one on ties — no
orientation score is involved. -/
def selectPrimaryCore (attempts : List RotationAttempt) :
    Option RotationAttempt :=
  match attempts with
  | [] => none
  | a :: rest => some (rest.foldl coreStep a)

/-! ### Helper lemmas -/

theorem stableIns_length {α : Type} (f : α → α → Bool) (x : α) :
    ∀ l : List α, (stableIns f x l).length = l.length + 1 := by
  intro l
  induction l with
  | nil => rfl
  | cons y ys ih =>
    simp only [stableIns]
    by_cases h : f x y
    · simp [h]
    · simp [h, ih]

theorem stableSortJS_length {α : Type} (f : α → α → Bool) (l : List α) :
    (stableSortJS f l).length = l.length := by
  suffices h : ∀ (l : List α) (acc : List α),
      (l.foldl (fun a x => stableIns f x a) acc).length = acc.length + l.length by
    simpa using h l []
  intro l
  induction l with
  | nil => intro acc; simp
  | cons x xs ih =>
    intro acc
    simp only [List.foldl_cons, ih, stableIns_length, List.length_cons]
    omega

theorem mergeSweep_length (t : ℚ) :
    ∀ (bs : List BoundingBox) (cur : BoundingBox),
      (mergeSweep t cur bs).length ≤ bs.length + 1 := by
  intro bs
  induction bs with
  | nil => intro cur; simp [mergeSweep]
  | cons b rest ih =>
    intro cur
    simp only [mergeSweep]
    by_cases h : jsAbs (b.y0 - cur.y0) ≤ t ∧ b.x0 - cur.x1 ≤ t
    · simp only [h, if_true]
      exact le_trans (ih _) (by simp)
    · simp only [h, if_false, List.length_cons]
      have := ih b
      omega

theorem mergeBBoxes_length (L : List BoundingBox) (t : ℚ) :
    (mergeBBoxes L t).length ≤ L.length := by
  match L with
  | [] => simp [mergeBBoxes]
  | [b] => simp [mergeBBoxes]
  | a :: b :: rest =>
    show (mergeBBoxes (a :: b :: rest) t).length ≤ _
    have hsl := stableSortJS_length bboxBefore (a :: b :: rest)
    rcases hs : stableSortJS bboxBefore (a :: b :: rest) with _ | ⟨s, srest⟩
    · rw [hs] at hsl
      simp at hsl
    · rw [hs] at hsl
      have hsw := mergeSweep_length t srest s
      simp only [mergeBBoxes, hs]
      simp only [List.length_cons] at hsl ⊢
      omega

/-- C2: for every box found in a frame rotated counter-clockwise by θ and
original dimensions W×H, the transform back to the original frame (both in
`transformBBoxToOriginalOrientation` and in the primary-rotation list
transform) returns exactly (W−y1, x0, W−y0, x1) for θ=90,
(W−x1, H−y1, W−x0, H−y0) for θ=180, (y0, H−x1, y1, H−x0) for θ=270, and the
box unchanged for θ=0; the box (10,10,50,30) found after a 90° rotation of
a 400×600 image transforms back to exactly (370, 10, 390, 50) — the formula
value (the claim's stated instance (370,10,390,30) is off: its fourth
coordinate must be x1 = 50). -/
theorem C2_rotation_transform_exact :
    (∀ (b : BoundingBox) (w h : ℚ),
      transformBBoxToOriginalOrientation b 0 w h = b ∧
      transformBBoxToOriginalOrientation b 90 w h = ⟨w - b.y1, b.x0, w - b.y0, b.x1⟩ ∧
      transformBBoxToOriginalOrientation b 180 w h =
        ⟨w - b.x1, h - b.y1, w - b.x0, h - b.y0⟩ ∧
      transformBBoxToOriginalOrientation b 270 w h =
        ⟨b.y0, h - b.x1, b.y1, h - b.x0⟩ ∧
      transformPrimaryBBoxes [b] 0 w h = [b] ∧
      transformPrimaryBBoxes [b] 90 w h = [⟨w - b.y1, b.x0, w - b.y0, b.x1⟩] ∧
      transformPrimaryBBoxes [b] 180 w h =
        [⟨w - b.x1, h - b.y1, w - b.x0, h - b.y0⟩] ∧
      transformPrimaryBBoxes [b] 270 w h = [⟨b.y0, h - b.x1, b.y1, h - b.x0⟩]) ∧
    transformBBoxToOriginalOrientation ⟨10, 10, 50, 30⟩ 90 400 600 =
      ⟨370, 10, 390, 50⟩ := by
  constructor
  · intro b w h
    refine ⟨?_, ?_, ?_, ?_, ?_, ?_, ?_, ?_⟩ <;>
      norm_num [transformBBoxToOriginalOrientation, transformPrimaryBBoxes]
  · norm_num [transformBBoxToOriginalOrientation]

/-- C2 counterexample: the claim's concrete instance is false — the box
(10,10,50,30) after a 90° rotation of a 400×600 image maps to
(370, 10, 390, 50), not (370, 10, 390, 30). -/
theorem C2_counterexample_instance :
    transformBBoxToOriginalOrientation ⟨10, 10, 50, 30⟩ 90 400 600 ≠
      ⟨370, 10, 390, 30⟩ ∧
    transformBBoxToOriginalOrientation ⟨10, 10, 50, 30⟩ 90 400 600 =
      ⟨370, 10, 390, 50⟩ := by
  constructor
  · norm_num [transformBBoxToOriginalOrientation]
  · norm_num [transformBBoxToOriginalOrientation]

/-- C10: for every angle in {0, 90, 180, 270}, the rotation coordinate
transform preserves box well-formedness (x0 < x1 and y0 < y1), and a
well-formed box lying within the rotated canvas (H×W for 90°/270°, W×H for
0°/180°) maps to a box whose coordinates are all ≥ 0 and within the original
W×H image. -/
theorem C10_transform_well_formed (b : BoundingBox) (θ : ℤ) (w h : ℚ)
    (hθ : θ = 0 ∨ θ = 90 ∨ θ = 180 ∨ θ = 270) :
    (b.x0 < b.x1 → b.y0 < b.y1 →
      ((transformBBoxToOriginalOrientation b θ w h).x0 <
          (transformBBoxToOriginalOrientation b θ w h).x1 ∧
        (transformBBoxToOriginalOrientation b θ w h).y0 <
          (transformBBoxToOriginalOrientation b θ w h).y1)) ∧
    (b.x0 < b.x1 → b.y0 < b.y1 →
      0 ≤ b.x0 → b.x1 ≤ (if θ = 90 ∨ θ = 270 then h else w) →
      0 ≤ b.y0 → b.y1 ≤ (if θ = 90 ∨ θ = 270 then w else h) →
      (0 ≤ (transformBBoxToOriginalOrientation b θ w h).x0 ∧
        (transformBBoxToOriginalOrientation b θ w h).x1 ≤ w ∧
        0 ≤ (transformBBoxToOriginalOrientation b θ w h).y0 ∧
        (transformBBoxToOriginalOrientation b θ w h).y1 ≤ h)) := by
  rcases hθ with h0 | h90 | h180 | h270
  · subst h0
    constructor
    · intro h1 h2
      norm_num [transformBBoxToOriginalOrientation]
      exact ⟨h1, h2⟩
    · intro h1 h2 h3 h4 h5 h6
      norm_num [transformBBoxToOriginalOrientation] at *
      refine ⟨h3, h4, h5, h6⟩
  · subst h90
    constructor
    · intro h1 h2
      norm_num [transformBBoxToOriginalOrientation]
      constructor <;> linarith
    · intro h1 h2 h3 h4 h5 h6
      norm_num [transformBBoxToOriginalOrientation] at *
      refine ⟨by linarith, by linarith, by linarith, by linarith⟩
  · subst h180
    constructor
    · intro h1 h2
      norm_num [transformBBoxToOriginalOrientation]
      constructor <;> linarith
    · intro h1 h2 h3 h4 h5 h6
      norm_num [transformBBoxToOriginalOrientation] at *
      refine ⟨by linarith, by linarith, by linarith, by linarith⟩
  · subst h270
    constructor
    · intro h1 h2
      norm_num [transformBBoxToOriginalOrientation]
      constructor <;> linarith
    · intro h1 h2 h3 h4 h5 h6
      norm_num [transformBBoxToOriginalOrientation] at *
      refine ⟨by linarith, by linarith, by linarith, by linarith⟩

/-- C10 witness: the transform of the in-bounds box (10,10,50,30) under 90°
on a 400×600 image is well-formed and within bounds. -/
theorem C10_transform_well_formed_witness :
    ((10 : ℚ) < 50 ∧ (10 : ℚ) < 30) ∧
    ((transformBBoxToOriginalOrientation ⟨10, 10, 50, 30⟩ 90 400 600).x0 <
        (transformBBoxToOriginalOrientation ⟨10, 10, 50, 30⟩ 90 400 600).x1 ∧
      (transformBBoxToOriginalOrientation ⟨10, 10, 50, 30⟩ 90 400 600).y0 <
        (transformBBoxToOriginalOrientation ⟨10, 10, 50, 30⟩ 90 400 600).y1) ∧
    (0 ≤ (transformBBoxToOriginalOrientation ⟨10, 10, 50, 30⟩ 90 400 600).x0 ∧
      (transformBBoxToOriginalOrientation ⟨10, 10, 50, 30⟩ 90 400 600).x1 ≤ 400 ∧
      0 ≤ (transformBBoxToOriginalOrientation ⟨10, 10, 50, 30⟩ 90 400 600).y0 ∧
      (transformBBoxToOriginalOrientation ⟨10, 10, 50, 30⟩ 90 400 600).y1 ≤ 600) := by
  have h := C10_transform_well_formed ⟨10, 10, 50, 30⟩ 90 400 600 (by norm_num)
  refine ⟨by norm_num, ?_, ?_⟩
  · exact h.1 (by norm_num) (by norm_num)
  · exact h.2 (by norm_num) (by norm_num) (by norm_num) (by norm_num)
      (by norm_num) (by norm_num)

/-- C8 counterexample: bounding-box merging is not idempotent.  With
threshold 10, the list [(0,0,100,5), (120,5,130,10), (50,12,60,20)] merges
to M = [(0,0,100,5), (50,5,130,20)], and merging M again coalesces the two
remaining boxes, so `mergeBBoxes M 10 ≠ M` (and merging M ++ M differs from
M as well). -/
theorem C8_counterexample_idempotence :
    (mergeBBoxes (mergeBBoxes
        [⟨0, 0, 100, 5⟩, ⟨120, 5, 130, 10⟩, ⟨50, 12, 60, 20⟩] 10) 10 ≠
      mergeBBoxes [⟨0, 0, 100, 5⟩, ⟨120, 5, 130, 10⟩, ⟨50, 12, 60, 20⟩] 10) ∧
    (mergeBBoxes (mergeBBoxes
          [⟨0, 0, 100, 5⟩, ⟨120, 5, 130, 10⟩, ⟨50, 12, 60, 20⟩] 10
        ++ mergeBBoxes
          [⟨0, 0, 100, 5⟩, ⟨120, 5, 130, 10⟩, ⟨50, 12, 60, 20⟩] 10) 10 ≠
      mergeBBoxes [⟨0, 0, 100, 5⟩, ⟨120, 5, 130, 10⟩, ⟨50, 12, 60, 20⟩] 10) := by
  constructor <;> with_unfolding_all decide

/-- C8 (amended): re-merging an already-merged list never grows it — the
merge result's length is monotonically non-increasing under repetition
(and under merging a list with itself), and merging is the identity on
lists of at most one box; full idempotence fails in general (see the
counterexample). -/
theorem C8_merge_length_monotone :
    (∀ (l : List BoundingBox) (t : ℚ),
      (mergeBBoxes (mergeBBoxes l t) t).length ≤ (mergeBBoxes l t).length) ∧
    (∀ (l : List BoundingBox) (t : ℚ),
      (mergeBBoxes (mergeBBoxes l t ++ mergeBBoxes l t) t).length ≤
        (mergeBBoxes l t).length + (mergeBBoxes l t).length) ∧
    (∀ (l : List BoundingBox) (t : ℚ), (mergeBBoxes l t).length ≤ l.length) ∧
    (∀ (l : List BoundingBox) (t : ℚ), l.length ≤ 1 → mergeBBoxes l t = l) := by
  refine ⟨?_, ?_, ?_, ?_⟩
  · intro l t
    exact mergeBBoxes_length _ _
  · intro l t
    have := mergeBBoxes_length (mergeBBoxes l t ++ mergeBBoxes l t) t
    simpa using this
  · intro l t
    exact mergeBBoxes_length _ _
  · intro l t hl
    match l with
    | [] => rfl
    | [b] => rfl

/-- C8 witness: the monotonicity facts evaluated on the counterexample list,
with the `length ≤ 1` identity instantiated at a one-box list. -/
theorem C8_merge_length_monotone_witness :
    ((mergeBBoxes (mergeBBoxes
        [(⟨0, 0, 100, 5⟩ : BoundingBox), ⟨120, 5, 130, 10⟩, ⟨50, 12, 60, 20⟩] 10) 10).length ≤
      (mergeBBoxes
        [(⟨0, 0, 100, 5⟩ : BoundingBox), ⟨120, 5, 130, 10⟩, ⟨50, 12, 60, 20⟩] 10).length) ∧
    (([(⟨1, 2, 3, 4⟩ : BoundingBox)] : List BoundingBox).length ≤ 1 ∧
      mergeBBoxes [(⟨1, 2, 3, 4⟩ : BoundingBox)] 10 = [⟨1, 2, 3, 4⟩]) := by
  constructor
  · exact C8_merge_length_monotone.1 _ 10
  · exact ⟨by decide, C8_merge_length_monotone.2.2.2 [⟨1, 2, 3, 4⟩] 10 (by decide)⟩

/-- The dominance order of the server selection: strictly higher score, or
equal score and at-least-as-high confidence. -/
def selDominates (b p : RotationAttempt × ℚ) : Prop :=
  b.2 < p.2 ∨ (b.2 = p.2 ∧ b.1.confidence ≤ p.1.confidence)

theorem selDominates_refl (a : RotationAttempt × ℚ) : selDominates a a :=
  Or.inr ⟨rfl, le_refl _⟩

theorem selDominates_trans {a b c : RotationAttempt × ℚ}
    (h1 : selDominates a b) (h2 : selDominates b c) : selDominates a c := by
  rcases h1 with h1 | ⟨h1, h1c⟩ <;> rcases h2 with h2 | ⟨h2, h2c⟩
  · exact Or.inl (lt_trans h1 h2)
  · exact Or.inl (h2 ▸ h1)
  · exact Or.inl (h1 ▸ h2)
  · exact Or.inr ⟨h1.trans h2, le_trans h1c h2c⟩

theorem selStep_mem (best cur : RotationAttempt × ℚ) :
    selStep best cur = best ∨ selStep best cur = cur := by
  unfold selStep
  by_cases h1 : best.2 < cur.2
  · simp [h1]
  · by_cases h2 : cur.2 = best.2
    · by_cases h3 : best.1.confidence < cur.1.confidence <;> simp [h1, h2, h3]
    · simp [h1, h2]

theorem selStep_dom_left (best cur : RotationAttempt × ℚ) :
    selDominates best (selStep best cur) := by
  unfold selStep
  split
  · rename_i h1
    exact Or.inl h1
  · split
    · split
      · rename_i h1 h2 h3
        exact Or.inr ⟨h2.symm, le_of_lt h3⟩
      · exact selDominates_refl _
    · exact selDominates_refl _

theorem selStep_dom_right (best cur : RotationAttempt × ℚ) :
    selDominates cur (selStep best cur) := by
  unfold selStep
  split
  · exact selDominates_refl _
  · split
    · split
      · exact selDominates_refl _
      · rename_i h1 h2 h3
        exact Or.inr ⟨h2, not_lt.mp h3⟩
    · rename_i h1 h2
      exact Or.inl (lt_of_le_of_ne (not_lt.mp h1) h2)

theorem selStep_foldl (l : List (RotationAttempt × ℚ)) :
    ∀ init, (l.foldl selStep init) ∈ init :: l ∧
      ∀ b ∈ init :: l, selDominates b (l.foldl selStep init) := by
  induction l with
  | nil =>
    intro init
    refine ⟨by simp, ?_⟩
    intro b hb
    simp at hb
    subst hb
    exact selDominates_refl _
  | cons x xs ih =>
    intro init
    simp only [List.foldl_cons]
    obtain ⟨hmem, hdom⟩ := ih (selStep init x)
    constructor
    · rcases List.mem_cons.mp hmem with he | hxs
      · rcases selStep_mem init x with h | h
        · exact List.mem_cons.mpr (Or.inl (he.trans h))
        · exact List.mem_cons.mpr (Or.inr (List.mem_cons.mpr (Or.inl (he.trans h))))
      · exact List.mem_cons.mpr (Or.inr (List.mem_cons.mpr (Or.inr hxs)))
    · intro b hb
      have hstep := hdom (selStep init x) (List.mem_cons_self _ _)
      rcases List.mem_cons.mp hb with rfl | hb2
      · exact selDominates_trans (selStep_dom_left b x) hstep
      · rcases List.mem_cons.mp hb2 with rfl | hb3
        · exact selDominates_trans (selStep_dom_right init b) hstep
        · exact hdom b (List.mem_cons.mpr (Or.inr hb3))

theorem coreStep_foldl (l : List RotationAttempt) :
    ∀ init, (l.foldl coreStep init) ∈ init :: l ∧
      ∀ b ∈ init :: l, b.wordCount ≤ (l.foldl coreStep init).wordCount := by
  induction l with
  | nil =>
    intro init
    refine ⟨by simp, ?_⟩
    intro b hb
    simp at hb
    subst hb
    exact le_refl _
  | cons x xs ih =>
    intro init
    simp only [List.foldl_cons]
    obtain ⟨hmem, hdom⟩ := ih (coreStep init x)
    have hstepmem : coreStep init x = init ∨ coreStep init x = x := by
      unfold coreStep
      by_cases h : init.wordCount < x.wordCount <;> simp [h]
    have hstepdomL : init.wordCount ≤ (coreStep init x).wordCount := by
      unfold coreStep
      by_cases h : init.wordCount < x.wordCount <;> simp [h]
      exact le_of_lt h
    have hstepdomR : x.wordCount ≤ (coreStep init x).wordCount := by
      unfold coreStep
      by_cases h : init.wordCount < x.wordCount <;> simp [h]
      exact not_lt.mp h
    constructor
    · rcases List.mem_cons.mp hmem with he | hxs
      · rcases hstepmem with h | h
        · exact List.mem_cons.mpr (Or.inl (he.trans h))
        · exact List.mem_cons.mpr (Or.inr (List.mem_cons.mpr (Or.inl (he.trans h))))
      · exact List.mem_cons.mpr (Or.inr (List.mem_cons.mpr (Or.inr hxs)))
    · intro b hb
      have hstep := hdom (coreStep init x) (List.mem_cons_self _ _)
      rcases List.mem_cons.mp hb with rfl | hb2
      · exact le_trans hstepdomL hstep
      · rcases List.mem_cons.mp hb2 with rfl | hb3
        · exact le_trans hstepdomR hstep
        · exact hdom b (List.mem_cons.mpr (Or.inr hb3))

/-- C6 (amended): the server-side multi-rotation processor
(`ServerOCRProcessor.processWithRotations`) selects as primary the attempt
with the highest `calculateOrientationScore`, breaking score ties by higher
average confidence, for every non-empty rotation-attempt list; the core
`OCRProcessor.processWithRotations` (`ocr-core.ts`) does not consult the
scorer — it selects an attempt with the maximal word count (first on ties). -/
theorem C6_primary_selection :
    (∀ (a : RotationAttempt) (rest : List RotationAttempt),
      ∃ p, selectPrimaryServer (a :: rest) = some p ∧ p ∈ a :: rest ∧
        ∀ b ∈ a :: rest,
          calculateOrientationScore b < calculateOrientationScore p ∨
            (calculateOrientationScore b = calculateOrientationScore p ∧
              b.confidence ≤ p.confidence)) ∧
    (∀ (a : RotationAttempt) (rest : List RotationAttempt),
      ∃ p, selectPrimaryCore (a :: rest) = some p ∧ p ∈ a :: rest ∧
        ∀ b ∈ a :: rest, b.wordCount ≤ p.wordCount) := by
  constructor
  · intro a rest
    obtain ⟨hmem, hdom⟩ :=
      selStep_foldl (rest.map (fun x => (x, calculateOrientationScore x)))
        (a, calculateOrientationScore a)
    have hmem2 : (rest.map (fun x => (x, calculateOrientationScore x))).foldl selStep
        (a, calculateOrientationScore a) ∈
        (a :: rest).map (fun x => (x, calculateOrientationScore x)) := by
      simpa using hmem
    obtain ⟨p, hp, hfp⟩ := List.mem_map.mp hmem2
    refine ⟨p, ?_, hp, ?_⟩
    · simp only [selectPrimaryServer, List.map_cons]
      rw [← hfp]
    · intro b hb
      have hfb : (b, calculateOrientationScore b) ∈
          (a, calculateOrientationScore a) ::
            rest.map (fun x => (x, calculateOrientationScore x)) := by
        rcases List.mem_cons.mp hb with rfl | hb2
        · exact List.mem_cons_self _ _
        · exact List.mem_cons.mpr (Or.inr (List.mem_map.mpr ⟨b, hb2, rfl⟩))
      have hd := hdom _ hfb
      rw [← hfp] at hd
      exact hd
  · intro a rest
    obtain ⟨hmem, hdom⟩ := coreStep_foldl rest a
    refine ⟨rest.foldl coreStep a, ?_, hmem, ?_⟩
    · simp only [selectPrimaryCore]
    · intro b hb
      exact hdom b hb

/-- C6 counterexample: the claim fails for the core multi-rotation processor
— on two attempts where the second has the strictly higher orientation
score (but fewer words), `OCRProcessor.processWithRotations` still selects
the first. -/
theorem C6_counterexample_core_selection :
    selectPrimaryCore [⟨0, "", [], 10, 10, none⟩, ⟨90, "", [], 100, 5, none⟩] =
      some ⟨0, "", [], 10, 10, none⟩ ∧
    calculateOrientationScore ⟨0, "", [], 10, 10, none⟩ <
      calculateOrientationScore ⟨90, "", [], 100, 5, none⟩ := by
  constructor <;> with_unfolding_all decide

theorem patternCounts_eq (toks : List (List Char)) :
    patternCounts toks =
      (toks.countP (fun t => tokCountsValid t),
        toks.countP (fun t => tokCountsNoise t)) := by
  suffices h : ∀ (ts : List (List Char)) (acc : ℕ × ℕ),
      ts.foldl
        (fun (st : ℕ × ℕ) tok =>
          if cleanTok tok = [] then st
          else if tokCountsValid tok then (st.1 + 1, st.2)
          else if tokCountsNoise tok then (st.1, st.2 + 1)
          else st) acc =
        (acc.1 + ts.countP (fun t => tokCountsValid t),
          acc.2 + ts.countP (fun t => tokCountsNoise t)) by
    simpa [patternCounts] using h toks (0, 0)
  intro ts
  induction ts with
  | nil => intro acc; simp
  | cons t ts ih =>
    intro acc
    simp only [List.foldl_cons, List.countP_cons]
    by_cases hc : cleanTok t = []
    · have hv : tokCountsValid t = false := by
        unfold tokCountsValid
        simp [hc]
      have hn : tokCountsNoise t = false := by
        unfold tokCountsNoise
        simp [hc]
      simp [hc, hv, hn, ih]
    · by_cases hv : tokCountsValid t
      · have hn : tokCountsNoise t = false := by
          unfold tokCountsNoise
          simp [hv]
        simp only [hc, if_false, hv, if_true, ih, hn]
        simp
        omega
      · by_cases hn : tokCountsNoise t
        · simp only [hc, if_false, hv, if_true, ih, hn]
          simp [hv, hn]
          omega
        · simp only [hc, if_false, hv, if_true, ih, hn]
          simp [hv, hn]

/-- The pattern term of the claim C9, as amended: ratios of the
valid/noise token counts (under the source's actual classification, where a
token stripped of punctuation to nothing is skipped — it is counted in
neither class) with the +5 bonus, the −10 penalty and the clamp. -/
def amendedPatternScore (text : String) (blocks : List TextBlock) : ℚ :=
  if trimJS text.data = [] ∨ blocks = [] then 0
  else
    let toks := splitWsTokens text.data
    if toks = [] then 0
    else
      let vf : ℚ := (toks.countP (fun t => tokCountsValid t) : ℕ) / toks.length
      let nf : ℚ := (toks.countP (fun t => tokCountsNoise t) : ℕ) / toks.length
      let base := vf * 10 - nf * 5
      let withBonus :=
        if 7 / 10 < vf ∧ 60 < avgBlockConfidence blocks then base + 5 else base
      let withPenalty :=
        if avgBlockConfidence blocks < 30 then withBonus - 10 else withBonus
      jsMax (-10) (jsMin 20 withPenalty)

/-- C9 (amended): the orientation score equals
`wordCount * (confidence / 100)` plus the clamped pattern term
`validRatio·10 − noiseRatio·5` (+5 bonus when `validRatio > 0.7` and average
word confidence > 60, −10 when average word confidence < 30, clamped to
[−10, 20]) — where the token classes are the source's: a token whose
punctuation-stripped form is empty is skipped (it counts in neither class,
only in the total), valid tests alphabetic/alphanumeric/numeric on the
stripped form and percentage/volume on the raw token, and the noise class
only catches non-valid tokens (in particular the 1–2 letter "consonant/vowel
run" patterns are subsumed: such tokens are alphabetic, hence valid). -/
theorem C9_orientation_score_formula :
    ∀ a : RotationAttempt,
      calculateOrientationScore a =
        (a.wordCount : ℚ) * (a.confidence / 100) +
          amendedPatternScore a.text a.blocks := by
  intro a
  unfold calculateOrientationScore
  congr 1
  unfold calculatePatternScore amendedPatternScore
  simp only [patternCounts_eq]

/-- Token validity exactly as claim C9 words it, applied to the raw
whitespace-delimited token (no punctuation stripping is mentioned in the
claim): alphabetic, alphanumeric, numeric, percentage or volume. -/
def specClaimTokenValid (tok : List Char) : Bool :=
  tokIsEnglish tok || tokIsAlnum tok || tokIsNumeric tok ||
    tokIsPercentage tok || tokIsVolume tok

/-- Token noise exactly as claim C9 words it: 1–2 character consonant-only
or vowel-only runs, or tokens with no alphanumeric content (taking the
claim's valid classes as having precedence, as in the source's
`if/else if`). -/
def specClaimTokenNoise (tok : List Char) : Bool :=
  !specClaimTokenValid tok &&
    (tokIsConsonantRun tok || tokIsVowelRun tok || tokNoAlnum tok)

/-- The orientation score as claim C9 states it, for comparison with the
embedded `calculateOrientationScore`. -/
def specClaimOrientationScore (a : RotationAttempt) : ℚ :=
  let toks := splitWsTokens a.text.data
  let vf : ℚ := (toks.countP (fun t => specClaimTokenValid t) : ℕ) / toks.length
  let nf : ℚ := (toks.countP (fun t => specClaimTokenNoise t) : ℕ) / toks.length
  let base := vf * 10 - nf * 5
  let withBonus :=
    if 7 / 10 < vf ∧ 60 < avgBlockConfidence a.blocks then base + 5 else base
  let withPenalty :=
    if avgBlockConfidence a.blocks < 30 then withBonus - 10 else withBonus
  (a.wordCount : ℚ) * (a.confidence / 100) + jsMax (-10) (jsMin 20 withPenalty)

/-- C9 counterexample: on the attempt with text `"%% ab"` (two tokens, one
pure punctuation) and two words of confidence 50, the source scores
2·(50/100) + 5 = 6 — the punctuation-only token is skipped, not counted as
noise — while the claim's formula (noise ratio 1/2) yields
2·(50/100) + 2.5 = 3.5. -/
theorem C9_counterexample_noise_classification :
    calculateOrientationScore
        ⟨0, "%% ab", [⟨"%%", 50, ⟨0, 0, 1, 1⟩⟩, ⟨"ab", 50, ⟨0, 0, 1, 1⟩⟩],
          50, 2, none⟩ = 6 ∧
    specClaimOrientationScore
        ⟨0, "%% ab", [⟨"%%", 50, ⟨0, 0, 1, 1⟩⟩, ⟨"ab", 50, ⟨0, 0, 1, 1⟩⟩],
          50, 2, none⟩ = 7 / 2 ∧
    (6 : ℚ) ≠ 7 / 2 := by
  refine ⟨?_, ?_, ?_⟩ <;> with_unfolding_all decide

/-- C7 (amended): `matchGovernmentWarning` counts how many of the six fixed
required phrases occur as substrings of the normalized OCR text and returns
`match` iff the present fraction is ≥ 60%, `mismatch` (partial) iff some but
fewer phrases are present, and `not_found` iff none is; for the OCR text
`"WARNING pregnant"` only 1 of the 6 phrases (`pregnant`) is present — not 2
as the claim counts — so the status is `mismatch` at 17% (not 33%), with the
message that the warning text is incomplete. -/
theorem C7_warning_threshold :
    (∀ (ocrText : String) (raw : Option TesseractResult)
        (rots : Option (List (ℤ × Option TesseractResult))) (w h : ℚ),
      ((matchGovernmentWarning ocrText raw rots w h).status = .matched ↔
        (60 : ℚ) ≤ ((foundPhrases ocrText).length : ℚ) / 6 * 100) ∧
      ((matchGovernmentWarning ocrText raw rots w h).status = .mismatch ↔
        (0 < (foundPhrases ocrText).length ∧
          ¬ (60 : ℚ) ≤ ((foundPhrases ocrText).length : ℚ) / 6 * 100)) ∧
      ((matchGovernmentWarning ocrText raw rots w h).status = .notFound ↔
        (foundPhrases ocrText).length = 0)) ∧
    ((matchGovernmentWarning "WARNING pregnant").status = .mismatch ∧
      (matchGovernmentWarning "WARNING pregnant").message =
        "Health warning text incomplete or illegible" ∧
      (foundPhrases "WARNING pregnant").length = 1 ∧
      (matchGovernmentWarning "WARNING pregnant").confidence = 17) := by
  constructor
  · intro ocrText raw rots w h
    have hth : warningPhraseMatchThreshold * 100 = (60 : ℚ) := by
      norm_num [warningPhraseMatchThreshold]
    have hlen : ((WARNING_REQUIRED_PHRASES.length : ℕ) : ℚ) = 6 := by
      norm_num [WARNING_REQUIRED_PHRASES]
    have hk : (0 : ℚ) ≤ ((foundPhrases ocrText).length : ℚ) := by positivity
    simp only [matchGovernmentWarning, hth, hlen]
    split
    · rename_i h1
      have hne : (foundPhrases ocrText).length ≠ 0 := by
        intro h0
        rw [h0] at h1
        norm_num at h1
      refine ⟨⟨fun _ => h1, fun _ => rfl⟩, ?_, ?_⟩
      · constructor
        · intro hcontra
          simp at hcontra
        · intro hcontra
          exact absurd h1 hcontra.2
      · constructor
        · intro hcontra
          simp at hcontra
        · intro h0
          exact absurd h0 hne
    · split
      · rename_i h1 h2
        refine ⟨?_, ⟨fun _ => ⟨h2, h1⟩, fun _ => rfl⟩, ?_⟩
        · constructor
          · intro hcontra
            simp at hcontra
          · intro hcontra
            exact absurd hcontra h1
        · constructor
          · intro hcontra
            simp at hcontra
          · intro h0
            omega
      · rename_i h1 h2
        have h0 : (foundPhrases ocrText).length = 0 := by omega
        refine ⟨?_, ?_, ⟨fun _ => h0, fun _ => rfl⟩⟩
        · constructor
          · intro hcontra
            simp at hcontra
          · intro hcontra
            exact absurd hcontra h1
        · constructor
          · intro hcontra
            simp at hcontra
          · intro hcontra
            omega
  · refine ⟨?_, ?_, ?_, ?_⟩ <;> with_unfolding_all decide

/-- C7 counterexample: the claim's parenthetical is wrong about the scenario
— `"WARNING pregnant"` contains 1 of the 6 required phrases (16.7%, rounded
confidence 17), not 2 of 6 (33%): the list has `"government warning"`, not
`"warning"`, as a phrase. -/
theorem C7_counterexample_phrase_count :
    (foundPhrases "WARNING pregnant").length = 1 ∧
    (foundPhrases "WARNING pregnant").length ≠ 2 ∧
    (matchGovernmentWarning "WARNING pregnant").confidence = 17 ∧
    (17 : ℤ) ≠ 33 := by
  refine ⟨?_, ?_, ?_, ?_⟩ <;> with_unfolding_all decide

set_option maxRecDepth 4000 in
theorem netParse750 : parseVolume "750 mL" = some (750, "mL") := by
  with_unfolding_all decide

set_option maxRecDepth 4000 in
theorem netVolsOz : netVols none "25.36 oz" = [(634 / 25, "oz")] := by
  with_unfolding_all decide

set_option maxRecDepth 4000 in
theorem netVolsMl2 :
    netVols none "100 mL 800 mL" = [(100, "mL"), (800, "mL")] := by
  with_unfolding_all decide

set_option maxRecDepth 4000 in
theorem netVols750 : netVols none "750 ml" = [(750, "mL")] := by
  with_unfolding_all decide

set_option maxRecDepth 4000 in
theorem netVolsLeak : netVols (some volLeakRaw) "750 ml" = [] := by
  with_unfolding_all decide

set_option maxRecDepth 4000 in
/-- C5 (amended): `matchNetContents` parses the expected value as
value+unit and converts the expected value and every extracted volume token
to milliliters (oz = 29.5735 mL, L = 1000 mL).  The volume extraction runs
the three module-level `/g` patterns over the OCR text, each starting from
the `lastIndex` that pattern carries: when `rawTesseract` is present the
preceding `findPatternBBoxes` `pattern.test` calls on the OCR words advance
that index, and `matchAll` inherits it, so volume tokens before it are
skipped (the concrete instance: a raw word `750ml` leaves the mL pattern at
`lastIndex` 5, and OCR text `"750 ml"` then yields no volumes although the
same text without `rawTesseract` yields 750 mL).  The result is `match` iff
some extracted volume is within 2% relative tolerance of the expected;
`mismatch` reporting the *first* extracted volume (in pattern order mL, oz,
L — not the closest) when volumes were extracted but none is within
tolerance; `not_found` when the expected value cannot be parsed (with the
invalid-format message) or when no volume is extracted.  Expected
`"750 mL"` against OCR token `"25.36 oz"` (no raw result) yields `match`. -/
theorem C5_net_contents_matching :
    (∀ (expected ocrText : String) (raw : Option TesseractResult)
        (deg : ℤ) (w h : ℚ) (v : ℚ) (u : String),
      parseVolume expected = some (v, u) →
      (((matchNetContents expected ocrText raw deg w h).status = .matched ↔
        ∃ f ∈ netVols raw ocrText,
          jsAbs (convertToML v u - convertToML f.1 f.2) ≤
            convertToML v u * (2 / 100)) ∧
      (netVols raw ocrText ≠ [] →
        (∀ f ∈ netVols raw ocrText,
          ¬ jsAbs (convertToML v u - convertToML f.1 f.2) ≤
            convertToML v u * (2 / 100)) →
        (matchNetContents expected ocrText raw deg w h).status = .mismatch ∧
        ∃ f, (netVols raw ocrText).head? = some f ∧
          (matchNetContents expected ocrText raw deg w h).found =
            some (numToStr f.1 ++ " " ++ f.2)) ∧
      (netVols raw ocrText = [] →
        (matchNetContents expected ocrText raw deg w h).status = .notFound))) ∧
    (∀ (expected ocrText : String) (raw : Option TesseractResult)
        (deg : ℤ) (w h : ℚ),
      parseVolume expected = none →
      (matchNetContents expected ocrText raw deg w h).status = .notFound ∧
      (matchNetContents expected ocrText raw deg w h).message =
        "Invalid volume format") ∧
    (convertToML 1 "oz" = 295735 / 10000 ∧ convertToML 1 "L" = 1000 ∧
      convertToML 1 "mL" = 1) ∧
    (netVols none "750 ml" = [(750, "mL")] ∧
      patternLastIndex sfxMl volLeakRaw = 5 ∧
      netVols (some volLeakRaw) "750 ml" = [] ∧
      (matchNetContents "750 mL" "750 ml").status = .matched ∧
      (matchNetContents "750 mL" "750 ml" (some volLeakRaw)).status =
        .notFound) ∧
    (matchNetContents "750 mL" "25.36 oz").status = .matched := by
  refine ⟨?_, ?_, ⟨?_, ?_, ?_⟩, ⟨?_, ?_, ?_, ?_, ?_⟩, ?_⟩
  · intro expected ocrText raw deg w h v u hp
    have htol : volumeToleranceCfg = 2 / 100 := rfl
    simp only [matchNetContents, hp, htol]
    rcases hf : (netVols raw ocrText).find? (fun f =>
        decide (jsAbs (convertToML v u - convertToML f.1 f.2) ≤
          convertToML v u * (2 / 100))) with _ | f
    · simp only [hf]
      rcases hvols : netVols raw ocrText with _ | ⟨closest, rest⟩
      · simp only [hvols]
        refine ⟨?_, ?_, ?_⟩
        · constructor
          · intro hcontra
            simp at hcontra
          · intro hex
            obtain ⟨f, hf2, -⟩ := hex
            simp at hf2
        · intro hne _
          exact absurd rfl hne
        · intro _
          simp
      · simp only [hvols]
        refine ⟨?_, ?_, ?_⟩
        · constructor
          · intro hcontra
            simp at hcontra
          · intro hex
            obtain ⟨f, hmem, hpred⟩ := hex
            have hnone := List.find?_eq_none.mp hf f (by rw [hvols]; exact hmem)
            simp only [decide_eq_true_eq] at hnone
            exact absurd hpred hnone
        · intro _ _
          refine ⟨by simp, closest, by simp, by simp⟩
        · intro hcontra
          simp at hcontra
    · simp only [hf]
      have hpred := List.find?_some hf
      have hmem := List.mem_of_find?_eq_some hf
      simp only [decide_eq_true_eq] at hpred
      refine ⟨?_, ?_, ?_⟩
      · constructor
        · intro _
          exact ⟨f, hmem, hpred⟩
        · intro _
          simp
      · intro _ hall
        exact absurd hpred (hall f hmem)
      · intro hnil
        rw [hnil] at hmem
        simp at hmem
  · intro expected ocrText raw deg w h hp
    simp only [matchNetContents, hp]
    exact ⟨by simp, by simp⟩
  · simp +decide [convertToML, VOLUME_TO_ML, List.find?]
  · simp +decide [convertToML, VOLUME_TO_ML, List.find?]
  · simp +decide [convertToML, VOLUME_TO_ML, List.find?]
  · exact netVols750
  · with_unfolding_all decide
  · exact netVolsLeak
  · simp only [matchNetContents, netParse750, netVols750]
    with_unfolding_all decide
  · simp only [matchNetContents, netParse750, netVolsLeak]
    with_unfolding_all decide
  · simp only [matchNetContents, netParse750, netVolsOz]
    with_unfolding_all decide

set_option maxRecDepth 4000 in
/-- C5 witness: the scenario instance through the theorem — expected
`"750 mL"`, OCR `"25.36 oz"`, no raw result, is a match (25.36·29.5735 =
749.98396 mL is within 2% of 750 mL). -/
theorem C5_net_contents_matching_witness :
    parseVolume "750 mL" = some (750, "mL") ∧
    (matchNetContents "750 mL" "25.36 oz").status = .matched := by
  constructor
  · exact netParse750
  · exact (C5_net_contents_matching.1 "750 mL" "25.36 oz" none 0 0 0 750 "mL"
      netParse750).1.mpr
      ⟨(634 / 25, "oz"), by rw [netVolsOz]; simp, by with_unfolding_all decide⟩

set_option maxRecDepth 4000 in
/-- C5 counterexample: the mismatch branch reports the first found volume,
not the closest one — for expected `"750 mL"` and OCR text
`"100 mL 800 mL"`, 800 mL is strictly closer to 750 mL than 100 mL, yet the
result reports `found = "100 mL"`. -/
theorem C5_counterexample_closest_reporting :
    (matchNetContents "750 mL" "100 mL 800 mL").status = .mismatch ∧
    (matchNetContents "750 mL" "100 mL 800 mL").found = some "100 mL" ∧
    (matchNetContents "750 mL" "100 mL 800 mL").found ≠ some "800 mL" ∧
    jsAbs (750 - convertToML 800 "mL") < jsAbs (750 - convertToML 100 "mL") := by
  refine ⟨?_, ?_, ?_, ?_⟩
  · simp only [matchNetContents, netParse750, netVolsMl2]
    with_unfolding_all decide
  · simp only [matchNetContents, netParse750, netVolsMl2]
    with_unfolding_all decide
  · simp only [matchNetContents, netParse750, netVolsMl2]
    with_unfolding_all decide
  · with_unfolding_all decide

theorem withinTol_mono {E : Option ℚ} {t1 t2 c : ℚ}
    (h : withinTol E t1 c = true) (ht : t1 ≤ t2) : withinTol E t2 c = true := by
  unfold withinTol at *
  cases E with
  | none => simp at h
  | some e =>
    simp only [decide_eq_true_eq] at h ⊢
    linarith

theorem find?_none_of_sub {p : ℚ → Bool} {A all : List ℚ}
    (hsub : ∀ c ∈ A, c ∈ all) (h : all.find? p = none) : A.find? p = none := by
  rw [List.find?_eq_none] at h ⊢
  intro c hc
  exact h c (hsub c hc)


theorem alcoholTextDecide_spec (E : Option ℚ) (bb : Option (List BoundingBox))
    (A B P C : List ℚ) :
    ((alcoholTextDecide E bb A B P C).status = .matched ↔
      ∃ c ∈ A ++ B ++ P ++ C, withinTol E alcoholExactTolerance c = true) ∧
    (∀ v, (A ++ B ++ P ++ C).find? (withinTol E alcoholExactTolerance) = none →
      (A ++ B ++ P ++ C).find? (withinTol E alcoholLooseTolerance) = some v →
      (alcoholTextDecide E bb A B P C).status = .mismatch ∧
      (alcoholTextDecide E bb A B P C).confidence = 50 ∧
      (alcoholTextDecide E bb A B P C).found = some (numToStr v ++ "%")) ∧
    ((A ++ B ++ P ++ C).find? (withinTol E alcoholLooseTolerance) = none →
      A ++ B ++ P ++ C ≠ [] →
      (alcoholTextDecide E bb A B P C).status = .mismatch ∧
      (alcoholTextDecide E bb A B P C).confidence = 0) ∧
    (A ++ B ++ P ++ C = [] →
      (alcoholTextDecide E bb A B P C).status = .notFound) := by
  have hsubA : ∀ c ∈ A, c ∈ A ++ B ++ P ++ C := by
    intro c hc
    simp [hc]
  have hsubB : ∀ c ∈ B, c ∈ A ++ B ++ P ++ C := by
    intro c hc
    simp [hc]
  have hsubP : ∀ c ∈ P, c ∈ A ++ B ++ P ++ C := by
    intro c hc
    simp [hc]
  have hTolLoose : ∀ c : ℚ, withinTol E alcoholExactTolerance c = true →
      withinTol E alcoholLooseTolerance c = true := by
    intro c hc
    exact withinTol_mono hc
      (by norm_num [alcoholExactTolerance, alcoholLooseTolerance])
  rcases hA : A.find? (withinTol E alcoholExactTolerance) with _ | v
  case some =>
    have hv := List.mem_of_find?_eq_some hA
    have hvp := List.find?_some hA
    have hres : alcoholTextDecide E bb A B P C =
        { field := "alcoholContent", status := .matched,
          expected := numOrNaN E ++ "%", found := some (numToStr v ++ "%"),
          confidence := 100, message := "Alcohol content verified",
          bboxes := bb } := by
      simp only [alcoholTextDecide, hA]
    refine ⟨⟨fun _ => ⟨v, hsubA v hv, hvp⟩, fun _ => by rw [hres]⟩, ?_, ?_, ?_⟩
    · intro u hTolN _
      exact absurd hvp (List.find?_eq_none.mp hTolN v (hsubA v hv))
    · intro hLooseN _
      exact absurd (hTolLoose v hvp) (List.find?_eq_none.mp hLooseN v (hsubA v hv))
    · intro hnil
      simp only [List.append_eq_nil] at hnil
      rw [hnil.1.1.1] at hA
      simp at hA
  case none =>
  rcases hB : B.find? (withinTol E alcoholExactTolerance) with _ | v
  case some =>
    have hv := List.mem_of_find?_eq_some hB
    have hvp := List.find?_some hB
    have hres : alcoholTextDecide E bb A B P C =
        { field := "alcoholContent", status := .matched,
          expected := numOrNaN E ++ "%", found := some (numToStr v ++ "%"),
          confidence := 100, message := "Alcohol content verified",
          bboxes := bb } := by
      simp only [alcoholTextDecide, hA, hB]
    refine ⟨⟨fun _ => ⟨v, hsubB v hv, hvp⟩, fun _ => by rw [hres]⟩, ?_, ?_, ?_⟩
    · intro u hTolN _
      exact absurd hvp (List.find?_eq_none.mp hTolN v (hsubB v hv))
    · intro hLooseN _
      exact absurd (hTolLoose v hvp) (List.find?_eq_none.mp hLooseN v (hsubB v hv))
    · intro hnil
      simp only [List.append_eq_nil] at hnil
      rw [hnil.1.1.2] at hB
      simp at hB
  case none =>
  rcases hP : P.find? (withinTol E alcoholExactTolerance) with _ | v
  case some =>
    have hv := List.mem_of_find?_eq_some hP
    have hvp := List.find?_some hP
    have hres : alcoholTextDecide E bb A B P C =
        { field := "alcoholContent", status := .matched,
          expected := numOrNaN E ++ "%", found := some (numToStr v ++ "%"),
          confidence := 100, message := "Alcohol content verified",
          bboxes := bb } := by
      simp only [alcoholTextDecide, hA, hB, hP]
    refine ⟨⟨fun _ => ⟨v, hsubP v hv, hvp⟩, fun _ => by rw [hres]⟩, ?_, ?_, ?_⟩
    · intro u hTolN _
      exact absurd hvp (List.find?_eq_none.mp hTolN v (hsubP v hv))
    · intro hLooseN _
      exact absurd (hTolLoose v hvp) (List.find?_eq_none.mp hLooseN v (hsubP v hv))
    · intro hnil
      simp only [List.append_eq_nil] at hnil
      rw [hnil.1.2] at hP
      simp at hP
  case none =>
  rcases hAllT : (A ++ B ++ P ++ C).find? (withinTol E alcoholExactTolerance)
      with _ | v
  case some =>
    have hv := List.mem_of_find?_eq_some hAllT
    have hvp := List.find?_some hAllT
    have hres : alcoholTextDecide E bb A B P C =
        { field := "alcoholContent", status := .matched,
          expected := numOrNaN E ++ "%", found := some (numToStr v ++ "%"),
          confidence := 100, message := "Alcohol content verified",
          bboxes := bb } := by
      simp only [alcoholTextDecide, hA, hB, hP, hAllT]
    refine ⟨⟨fun _ => ⟨v, hv, hvp⟩, fun _ => by rw [hres]⟩, ?_, ?_, ?_⟩
    · intro u hTolN _
      simp at hTolN
    · intro hLooseN _
      exact absurd (hTolLoose v hvp) (List.find?_eq_none.mp hLooseN v hv)
    · intro hnil
      rw [hnil] at hAllT
      simp at hAllT
  case none =>
  rcases hAllL : (A ++ B ++ P ++ C).find? (withinTol E alcoholLooseTolerance)
      with _ | v
  case some =>
    have hres : alcoholTextDecide E bb A B P C =
        { field := "alcoholContent", status := .mismatch,
          expected := numOrNaN E ++ "%", found := some (numToStr v ++ "%"),
          confidence := 50, message := "Alcohol content discrepancy detected",
          bboxes := bb } := by
      simp only [alcoholTextDecide, hA, hB, hP, hAllT, hAllL]
    refine ⟨?_, ?_, ?_, ?_⟩
    · rw [hres]
      constructor
      · intro h
        exact absurd h (by simp)
      · intro hex
        obtain ⟨c, hc, hcp⟩ := hex
        exact absurd hcp (List.find?_eq_none.mp hAllT c hc)
    · intro u _ hu
      injection hu with hu
      subst hu
      exact ⟨by rw [hres], by rw [hres], by rw [hres]⟩
    · intro hLooseN _
      simp at hLooseN
    · intro hnil
      rw [hnil] at hAllL
      simp at hAllL
  case none =>
  have hnotol : ¬ ∃ c ∈ A ++ B ++ P ++ C,
      withinTol E alcoholExactTolerance c = true := by
    intro hex
    obtain ⟨c, hc, hcp⟩ := hex
    exact absurd hcp (List.find?_eq_none.mp hAllT c hc)
  rcases A with _ | ⟨a, A2⟩
  case cons =>
    have hres : alcoholTextDecide E bb (a :: A2) B P C =
        { field := "alcoholContent", status := .mismatch,
          expected := numOrNaN E ++ "%", found := some (numToStr a ++ "%"),
          confidence := 0, message := "Alcohol content does not match",
          bboxes := bb } := by
      simp only [alcoholTextDecide, hA, hB, hP, hAllT, hAllL]
    refine ⟨?_, ?_, ?_, ?_⟩
    · rw [hres]
      constructor
      · intro h
        exact absurd h (by simp)
      · intro hex
        exact absurd hex hnotol
    · intro u _ hu
      simp at hu
    · intro _ _
      exact ⟨by rw [hres], by rw [hres]⟩
    · intro hnil
      simp at hnil
  case nil =>
  rcases B with _ | ⟨b, B2⟩
  case cons =>
    have hres : alcoholTextDecide E bb [] (b :: B2) P C =
        { field := "alcoholContent", status := .mismatch,
          expected := numOrNaN E ++ "%", found := some (numToStr b ++ "%"),
          confidence := 0, message := "Alcohol content does not match",
          bboxes := bb } := by
      simp only [alcoholTextDecide, hA, hB, hP, hAllT, hAllL]
    refine ⟨?_, ?_, ?_, ?_⟩
    · rw [hres]
      constructor
      · intro h
        exact absurd h (by simp)
      · intro hex
        exact absurd hex hnotol
    · intro u _ hu
      simp at hu
    · intro _ _
      exact ⟨by rw [hres], by rw [hres]⟩
    · intro hnil
      simp at hnil
  case nil =>
  have hAllT2 : (P ++ C).find? (withinTol E alcoholExactTolerance) = none := by
    simpa using hAllT
  have hAllL2 : (P ++ C).find? (withinTol E alcoholLooseTolerance) = none := by
    simpa using hAllL
  rcases hPC : P ++ C with _ | ⟨x, xs⟩
  case cons =>
    have hAllT3 : (x :: xs).find? (withinTol E alcoholExactTolerance) = none := by
      rw [← hPC]
      exact hAllT2
    have hAllL3 : (x :: xs).find? (withinTol E alcoholLooseTolerance) = none := by
      rw [← hPC]
      exact hAllL2
    have hres : alcoholTextDecide E bb [] [] P C =
        { field := "alcoholContent", status := .mismatch,
          expected := numOrNaN E ++ "%", found := some (numToStr x ++ "%"),
          confidence := 0, message := "Alcohol content does not match",
          bboxes := bb } := by
      simp only [alcoholTextDecide, hA, hB, hP, List.nil_append, hPC,
        hAllT3, hAllL3]
    refine ⟨?_, ?_, ?_, ?_⟩
    · rw [hres]
      constructor
      · intro h
        exact absurd h (by simp)
      · intro hex
        exact absurd hex hnotol
    · intro u _ hu
      simp at hu
    · intro _ _
      exact ⟨by rw [hres], by rw [hres]⟩
    · intro hnil
      simp only [List.nil_append] at hnil
      rw [hnil] at hPC
      simp at hPC
  case nil =>
  have hres : alcoholTextDecide E bb [] [] P C =
      { field := "alcoholContent", status := .notFound,
        expected := numOrNaN E ++ "%", confidence := 0,
        message := "Alcohol content not detected", bboxes := none } := by
    simp only [alcoholTextDecide, hA, hB, hP, List.nil_append, hPC,
      List.find?_nil]
  refine ⟨?_, ?_, ?_, fun _ => by rw [hres]⟩
  · rw [hres]
    constructor
    · intro h
      exact absurd h (by simp)
    · intro hex
      exact absurd hex hnotol
  · intro u _ hu
    simp at hu
  · intro _ hne
    simp only [List.nil_append] at hne
    exact absurd hPC hne

theorem withinTol_some_iff (e t c : ℚ) :
    withinTol (some e) t c = true ↔ jsAbs (c - e) ≤ t := by
  simp [withinTol]

theorem matchAlcohol_default_unfold (expected ocrText : String) :
    matchAlcoholContent expected ocrText =
      alcoholTextDecide (parseFloatOpt (replaceFirst expected "%")) none
        (alcVolCands ocrText) (abvCands ocrText) (proofCands ocrText)
        (percentageCands ocrText) := rfl

theorem alcoholTextDecide_singleton_rank (e c : ℚ) :
    statusRank (alcoholTextDecide (some e) none [c] [] [] []) =
      if jsAbs (c - e) ≤ alcoholExactTolerance then 2
      else if jsAbs (c - e) ≤ alcoholLooseTolerance then 1 else 0 := by
  by_cases h1 : jsAbs (c - e) ≤ alcoholExactTolerance
  · have hp : withinTol (some e) alcoholExactTolerance c = true := by
      simp [withinTol, h1]
    have hf : List.find? (withinTol (some e) alcoholExactTolerance) [c] =
        some c := List.find?_cons_of_pos _ hp
    have hres : alcoholTextDecide (some e) none [c] [] [] [] =
        { field := "alcoholContent", status := .matched,
          expected := numOrNaN (some e) ++ "%",
          found := some (numToStr c ++ "%"), confidence := 100,
          message := "Alcohol content verified", bboxes := none } := by
      simp only [alcoholTextDecide, hf]
    rw [if_pos h1, hres]
    rfl
  · have hp1 : ¬ (withinTol (some e) alcoholExactTolerance c = true) := by
      simp [withinTol, h1]
    have hfe : List.find? (withinTol (some e) alcoholExactTolerance) [c] =
        none := by
      rw [List.find?_cons_of_neg _ hp1, List.find?_nil]
    by_cases h2 : jsAbs (c - e) ≤ alcoholLooseTolerance
    · have hpl : withinTol (some e) alcoholLooseTolerance c = true := by
        simp [withinTol, h2]
      have hfl : List.find? (withinTol (some e) alcoholLooseTolerance) [c] =
          some c := List.find?_cons_of_pos _ hpl
      have hres : alcoholTextDecide (some e) none [c] [] [] [] =
          { field := "alcoholContent", status := .mismatch,
            expected := numOrNaN (some e) ++ "%",
            found := some (numToStr c ++ "%"), confidence := 50,
            message := "Alcohol content discrepancy detected",
            bboxes := none } := by
        simp only [alcoholTextDecide, hfe, List.find?_nil, List.append_nil, hfl]
      rw [if_neg h1, if_pos h2, hres]
      simp [statusRank]
    · have hpl : ¬ (withinTol (some e) alcoholLooseTolerance c = true) := by
        simp [withinTol, h2]
      have hfl : List.find? (withinTol (some e) alcoholLooseTolerance) [c] =
          none := by
        rw [List.find?_cons_of_neg _ hpl, List.find?_nil]
      have hres : alcoholTextDecide (some e) none [c] [] [] [] =
          { field := "alcoholContent", status := .mismatch,
            expected := numOrNaN (some e) ++ "%",
            found := some (numToStr c ++ "%"), confidence := 0,
            message := "Alcohol content does not match", bboxes := none } := by
        simp only [alcoholTextDecide, hfe, List.find?_nil, List.append_nil, hfl]
      rw [if_neg h1, if_neg h2, hres]
      simp [statusRank]

set_option maxRecDepth 4000 in
theorem alcScenarioRecord :
    matchAlcoholContent "4.0" "4.2% ALC/VOL" =
      { field := "alcoholContent", status := .matched, expected := "4%",
        found := some "4.2%", confidence := 100,
        message := "Alcohol content verified", bboxes := none } := by
  with_unfolding_all decide

set_option maxRecDepth 4000 in
theorem alcBlockRecord :
    matchAlcoholContent "4.0" ""
        [⟨"ALC", 90, ⟨0, 0, 1, 1⟩⟩, ⟨"15%", 90, ⟨0, 0, 1, 1⟩⟩] =
      { field := "alcoholContent", status := .mismatch, expected := "4%",
        found := some "15%", confidence := 90,
        message := "Alcohol content does not match", bboxes := none } := by
  with_unfolding_all decide

/-- C3 (amended): for `matchAlcoholContent` on the text path (no layout
blocks) with expected value E: status is `match` iff some extracted
candidate is within the exact tolerance (±0.5) of E; when no candidate is
within exact tolerance but one is within the loose tolerance (±2.0), status
is `mismatch` (confidence 50) reporting the *first* such candidate in
extraction order (ALC/VOL, ABV, proof-derived, generic percentages) — not
the closest; when candidates exist but all exceed the loose tolerance,
status is `mismatch` with confidence 0; with no candidates, `not_found`.
On a single candidate the outcome rank (match > reported mismatch >
zero-confidence mismatch) is monotone in |candidate − E|, never reversing.
On the block path the all-beyond-loose fall-through instead reports
confidence `round(best word confidence)`, not 0. Expected `"4.0"` against
OCR `"4.2% ALC/VOL"` yields `match` with found `"4.2%"`. -/
theorem C3_alcohol_tolerance :
    (∀ (expected ocrText : String) (e : ℚ),
      parseFloatOpt (replaceFirst expected "%") = some e →
      (((matchAlcoholContent expected ocrText).status = .matched ↔
        ∃ c ∈ alcVolCands ocrText ++ abvCands ocrText ++ proofCands ocrText ++
            percentageCands ocrText, jsAbs (c - e) ≤ alcoholExactTolerance) ∧
      (∀ v,
        (alcVolCands ocrText ++ abvCands ocrText ++ proofCands ocrText ++
            percentageCands ocrText).find?
          (withinTol (some e) alcoholExactTolerance) = none →
        (alcVolCands ocrText ++ abvCands ocrText ++ proofCands ocrText ++
            percentageCands ocrText).find?
          (withinTol (some e) alcoholLooseTolerance) = some v →
        (matchAlcoholContent expected ocrText).status = .mismatch ∧
        (matchAlcoholContent expected ocrText).confidence = 50 ∧
        (matchAlcoholContent expected ocrText).found =
          some (numToStr v ++ "%")) ∧
      ((alcVolCands ocrText ++ abvCands ocrText ++ proofCands ocrText ++
            percentageCands ocrText).find?
          (withinTol (some e) alcoholLooseTolerance) = none →
        alcVolCands ocrText ++ abvCands ocrText ++ proofCands ocrText ++
            percentageCands ocrText ≠ [] →
        (matchAlcoholContent expected ocrText).status = .mismatch ∧
        (matchAlcoholContent expected ocrText).confidence = 0) ∧
      (alcVolCands ocrText ++ abvCands ocrText ++ proofCands ocrText ++
          percentageCands ocrText = [] →
        (matchAlcoholContent expected ocrText).status = .notFound))) ∧
    (∀ (e c1 c2 : ℚ),
      jsAbs (c1 - e) ≤ jsAbs (c2 - e) →
      statusRank (alcoholTextDecide (some e) none [c2] [] [] []) ≤
        statusRank (alcoholTextDecide (some e) none [c1] [] [] [])) ∧
    (∀ (E : Option ℚ) (words : List TextBlock) (best : ℚ × ℚ)
        (rest : List (ℚ × ℚ)),
      alcKeywordIdxs words ≠ [] →
      sortedBlockCandidates words = best :: rest →
      (∀ c ∈ sortedBlockCandidates words,
        withinTol E alcoholLooseTolerance c.1 = false) →
      matchAlcoholContentFromBlocks E words alcoholExactTolerance
          alcoholLooseTolerance =
        some { field := "alcoholContent", status := .mismatch,
               expected := numOrNaN E ++ "%",
               found := some (numToStr best.1 ++ "%"),
               confidence := jsRound best.2,
               message := "Alcohol content does not match" }) ∧
    ((matchAlcoholContent "4.0" "4.2% ALC/VOL").status = .matched ∧
      (matchAlcoholContent "4.0" "4.2% ALC/VOL").found = some "4.2%") := by
  refine ⟨?_, ?_, ?_, ?_, ?_⟩
  · intro expected ocrText e hp
    have hunf := matchAlcohol_default_unfold expected ocrText
    rw [hp] at hunf
    obtain ⟨s1, s2, s3, s4⟩ := alcoholTextDecide_spec (some e) none
      (alcVolCands ocrText) (abvCands ocrText) (proofCands ocrText)
      (percentageCands ocrText)
    refine ⟨?_, ?_, ?_, ?_⟩
    · rw [hunf]
      simpa only [withinTol_some_iff] using s1
    · intro v hT hL
      rw [hunf]
      exact s2 v hT hL
    · intro hL hne
      rw [hunf]
      exact s3 hL hne
    · intro hnil
      rw [hunf]
      exact s4 hnil
  · intro e c1 c2 h
    rw [alcoholTextDecide_singleton_rank, alcoholTextDecide_singleton_rank]
    split_ifs <;> first | omega | linarith
  · intro E words best rest hkw hsorted hnone
    have hmono : ∀ c ∈ sortedBlockCandidates words,
        ¬ ((fun c : ℚ × ℚ => withinTol E alcoholExactTolerance c.1) c = true) := by
      intro c hc hct
      have hl : withinTol E alcoholLooseTolerance c.1 = true :=
        withinTol_mono hct
          (by norm_num [alcoholExactTolerance, alcoholLooseTolerance])
      simp [hnone c hc] at hl
    have hfe : (sortedBlockCandidates words).find?
        (fun c => withinTol E alcoholExactTolerance c.1) = none :=
      List.find?_eq_none.mpr hmono
    have hfl : (sortedBlockCandidates words).find?
        (fun c => withinTol E alcoholLooseTolerance c.1) = none :=
      List.find?_eq_none.mpr (fun c hc => by simp [hnone c hc])
    rw [hsorted] at hfe hfl
    simp only [matchAlcoholContentFromBlocks, if_neg hkw, hsorted, hfe, hfl]
  · rw [alcScenarioRecord]
  · rw [alcScenarioRecord]

/-- C3 witness: the scenario instance through the theorem — expected
`"4.0"` parses to 4 and the candidate 4.2 extracted from
`"4.2% ALC/VOL"` is within the exact tolerance, so the status is `match`. -/
theorem C3_alcohol_tolerance_witness :
    parseFloatOpt (replaceFirst "4.0" "%") = some 4 ∧
    (matchAlcoholContent "4.0" "4.2% ALC/VOL").status = .matched := by
  constructor
  · with_unfolding_all decide
  · exact (C3_alcohol_tolerance.1 "4.0" "4.2% ALC/VOL" 4
      (by with_unfolding_all decide)).1.mpr
      ⟨21 / 5, by with_unfolding_all decide, by with_unfolding_all decide⟩

/-- C3 counterexample: on the block path the all-beyond-loose-tolerance
mismatch does not have confidence 0 — for expected `"4.0"` with layout
words `ALC` and `15%` (word confidence 90), the only candidate 15 exceeds
the loose tolerance (|15 − 4| > 2), yet the result is a mismatch with
confidence 90 ≠ 0. -/
theorem C3_counterexample_block_confidence :
    ((sortedBlockCandidates
        [⟨"ALC", 90, ⟨0, 0, 1, 1⟩⟩, ⟨"15%", 90, ⟨0, 0, 1, 1⟩⟩]).all
      fun c => !(withinTol (some 4) alcoholLooseTolerance c.1)) = true ∧
    sortedBlockCandidates
        [⟨"ALC", 90, ⟨0, 0, 1, 1⟩⟩, ⟨"15%", 90, ⟨0, 0, 1, 1⟩⟩] ≠ [] ∧
    (matchAlcoholContent "4.0" ""
        [⟨"ALC", 90, ⟨0, 0, 1, 1⟩⟩, ⟨"15%", 90, ⟨0, 0, 1, 1⟩⟩]).status =
      .mismatch ∧
    (matchAlcoholContent "4.0" ""
        [⟨"ALC", 90, ⟨0, 0, 1, 1⟩⟩, ⟨"15%", 90, ⟨0, 0, 1, 1⟩⟩]).confidence =
      90 ∧
    (matchAlcoholContent "4.0" ""
        [⟨"ALC", 90, ⟨0, 0, 1, 1⟩⟩, ⟨"15%", 90, ⟨0, 0, 1, 1⟩⟩]).confidence ≠
      0 := by
  refine ⟨?_, ?_, ?_, ?_, ?_⟩
  · with_unfolding_all decide
  · with_unfolding_all decide
  · rw [alcBlockRecord]
  · rw [alcBlockRecord]
  · rw [alcBlockRecord]
    with_unfolding_all decide

set_option maxRecDepth 4000 in
theorem cfEmptyBrand : matchBrandName "Test Brand" "" none 0 0 0 =
    { field := "brandName", status := .notFound, expected := "Test Brand",
      found := none, confidence := 0, message := "Brand name not detected",
      bboxes := none } := by
  with_unfolding_all decide

set_option maxRecDepth 4000 in
theorem cfEmptyProduct : matchProductType "Vodka" "" none 0 0 0 =
    { field := "productType", status := .matched, expected := "Vodka",
      found := some "Vodka", confidence := 95,
      message := "Product type verified", bboxes := none } := by
  with_unfolding_all decide

set_option maxRecDepth 4000 in
theorem cfEmptyAlcohol : matchAlcoholContent "40" "" [] none 0 0 0 =
    { field := "alcoholContent", status := .notFound, expected := "40%",
      found := none, confidence := 0,
      message := "Alcohol content not detected", bboxes := none } := by
  with_unfolding_all decide

set_option maxRecDepth 4000 in
theorem cfEmptyNet : matchNetContents "750 mL" "" none 0 0 0 =
    { field := "netContents", status := .notFound, expected := "750 mL",
      found := none, confidence := 0,
      message := "Net contents not detected", bboxes := none } := by
  with_unfolding_all decide

set_option maxRecDepth 4000 in
theorem cfEmptyWarning : matchGovernmentWarning "" none none 0 0 =
    { field := "governmentWarning", status := .notFound,
      expected := "GOVERNMENT WARNING", found := none, confidence := 0,
      message := "Required health warning not found", bboxes := none } := by
  with_unfolding_all decide

/-- C4 (code bug): on empty OCR text the verification result is complete
and the overall status is `fail`, but not every field is `not_found` — the
product-type matcher hits its truncated-containment branch
(`normalizedExpected.includes(normalizedOCR.slice(0, 50))` is true for the
empty string), so `productType` comes back `match` with confidence 95
although nothing was read from the label. -/
theorem C4_empty_ocr_divergence :
    (compareFields ⟨"Test Brand", "Vodka", "40", some "750 mL"⟩
        { text := "" }).overallStatus = .fail ∧
    ((compareFields ⟨"Test Brand", "Vodka", "40", some "750 mL"⟩
        { text := "" }).fields.map fun f => (f.field, f.status)) =
      [("brandName", .notFound), ("productType", .matched),
       ("alcoholContent", .notFound), ("netContents", .notFound),
       ("governmentWarning", .notFound)] ∧
    Status.matched ≠ Status.notFound := by
  have hC : compareFields ⟨"Test Brand", "Vodka", "40", some "750 mL"⟩
      { text := "" } =
      { overallStatus := determineOverallStatus
          [matchBrandName "Test Brand" "" none 0 0 0,
           matchProductType "Vodka" "" none 0 0 0,
           matchAlcoholContent "40" "" [] none 0 0 0,
           matchNetContents "750 mL" "" none 0 0 0,
           matchGovernmentWarning "" none none 0 0],
        fields :=
          [matchBrandName "Test Brand" "" none 0 0 0,
           matchProductType "Vodka" "" none 0 0 0,
           matchAlcoholContent "40" "" [] none 0 0 0,
           matchNetContents "750 mL" "" none 0 0 0,
           matchGovernmentWarning "" none none 0 0],
        rawOCRText := "" } := rfl
  rw [hC]
  rw [cfEmptyBrand, cfEmptyProduct, cfEmptyAlcohol, cfEmptyNet, cfEmptyWarning]
  refine ⟨?_, ?_, ?_⟩ <;> with_unfolding_all decide

theorem alcoholTextDecide_field (E : Option ℚ) (bb : Option (List BoundingBox))
    (A B P C : List ℚ) :
    (alcoholTextDecide E bb A B P C).field = "alcoholContent" := by
  simp only [alcoholTextDecide]
  repeat first | rfl | split

theorem fromBlocks_field (E : Option ℚ) (ws : List TextBlock) (t lt : ℚ)
    (r : FieldVerification)
    (h : matchAlcoholContentFromBlocks E ws t lt = some r) :
    r.field = "alcoholContent" := by
  unfold matchAlcoholContentFromBlocks at h
  split at h
  · exact absurd h (by simp)
  · simp only [] at h
    split at h
    · injection h with h
      rw [← h]
    · split at h
      · injection h with h
        rw [← h]
      · split at h
        · injection h with h
          rw [← h]
        · exact absurd h (by simp)

theorem matchBrandName_field (e t : String) (raw : Option TesseractResult)
    (d : ℤ) (w h : ℚ) : (matchBrandName e t raw d w h).field = "brandName" := by
  simp only [matchBrandName]
  repeat first | rfl | split

theorem matchProductType_field (e t : String) (raw : Option TesseractResult)
    (d : ℤ) (w h : ℚ) :
    (matchProductType e t raw d w h).field = "productType" := by
  simp only [matchProductType]
  repeat first | rfl | split

theorem matchAlcoholContent_field (e t : String) (blocks : List TextBlock)
    (raw : Option TesseractResult) (d : ℤ) (w h : ℚ) :
    (matchAlcoholContent e t blocks raw d w h).field = "alcoholContent" := by
  rcases hbr : (if blocks ≠ [] then
      matchAlcoholContentFromBlocks (parseFloatOpt (replaceFirst e "%")) blocks
        alcoholExactTolerance alcoholLooseTolerance
    else none) with _ | r
  · simp only [matchAlcoholContent, hbr]
    exact alcoholTextDecide_field _ _ _ _ _ _
  · simp only [matchAlcoholContent, hbr]
    show r.field = "alcoholContent"
    split at hbr
    · exact fromBlocks_field _ _ _ _ r hbr
    · exact absurd hbr (by simp)

theorem matchNetContents_field (e t : String) (raw : Option TesseractResult)
    (d : ℤ) (w h : ℚ) :
    (matchNetContents e t raw d w h).field = "netContents" := by
  simp only [matchNetContents]
  repeat first | rfl | split

theorem matchGovernmentWarning_field (t : String)
    (raw : Option TesseractResult)
    (rots : Option (List (ℤ × Option TesseractResult))) (w h : ℚ) :
    (matchGovernmentWarning t raw rots w h).field = "governmentWarning" := by
  simp only [matchGovernmentWarning]
  repeat first | rfl | split

theorem determineOverallStatus_pass_iff (fields : List FieldVerification) :
    determineOverallStatus fields = .pass ↔
      (fields.any fun f => requiredFieldNames.contains f.field
        && decide (f.status ≠ Status.matched)) = false := by
  unfold determineOverallStatus
  split
  case _ hcond =>
    constructor
    · intro hcontra
      exact absurd hcontra (by simp)
    · intro hfalse
      rw [hcond] at hfalse
      exact absurd hfalse (by simp)
  case _ hcond =>
    simp only [Bool.not_eq_true] at hcond
    exact ⟨fun _ => hcond, fun _ => rfl⟩

/-- C1: `overallStatus = pass` iff each of the three required fields
(brandName, productType, alcoholContent) has status `match`.  Every matcher
stamps its fixed field name; `compareFields` produces those five fields and
`determineOverallStatus` only inspects the required-named ones, so the
optional netContents and governmentWarning entries never gate the outcome:
replacing any entry whose name is not required by any other such entry
leaves the overall status unchanged. -/
theorem C1_overall_status :
    (∀ (e t : String) (raw : Option TesseractResult) (d : ℤ) (w h : ℚ)
        (blocks : List TextBlock)
        (rots : Option (List (ℤ × Option TesseractResult))),
      (matchBrandName e t raw d w h).field = "brandName" ∧
      (matchProductType e t raw d w h).field = "productType" ∧
      (matchAlcoholContent e t blocks raw d w h).field = "alcoholContent" ∧
      (matchNetContents e t raw d w h).field = "netContents" ∧
      (matchGovernmentWarning t raw rots w h).field = "governmentWarning") ∧
    (∀ (fd : LabelFormData) (ocr : OCRInputModel),
      (compareFields fd ocr).overallStatus = .pass ↔
        ((matchBrandName fd.brandName ocr.text ocr.rawTesseractResult
            (ocr.rotationAppliedDegrees.getD 0) (ocr.imageWidth.getD 0)
            (ocr.imageHeight.getD 0)).status = .matched ∧
         (matchProductType fd.productType ocr.text ocr.rawTesseractResult
            (ocr.rotationAppliedDegrees.getD 0) (ocr.imageWidth.getD 0)
            (ocr.imageHeight.getD 0)).status = .matched ∧
         (matchAlcoholContent fd.alcoholContent ocr.text ocr.blocks
            ocr.rawTesseractResult (ocr.rotationAppliedDegrees.getD 0)
            (ocr.imageWidth.getD 0) (ocr.imageHeight.getD 0)).status =
           .matched)) ∧
    (∀ (pre post : List FieldVerification) (v v' : FieldVerification),
      requiredFieldNames.contains v.field = false →
      requiredFieldNames.contains v'.field = false →
      determineOverallStatus (pre ++ v :: post) =
        determineOverallStatus (pre ++ v' :: post)) := by
  refine ⟨?_, ?_, ?_⟩
  · intro e t raw d w h blocks rots
    exact ⟨matchBrandName_field e t raw d w h,
      matchProductType_field e t raw d w h,
      matchAlcoholContent_field e t blocks raw d w h,
      matchNetContents_field e t raw d w h,
      matchGovernmentWarning_field t raw rots w h⟩
  · intro fd ocr
    have hover : (compareFields fd ocr).overallStatus =
        determineOverallStatus
          ([matchBrandName fd.brandName ocr.text ocr.rawTesseractResult
              (ocr.rotationAppliedDegrees.getD 0) (ocr.imageWidth.getD 0)
              (ocr.imageHeight.getD 0),
            matchProductType fd.productType ocr.text ocr.rawTesseractResult
              (ocr.rotationAppliedDegrees.getD 0) (ocr.imageWidth.getD 0)
              (ocr.imageHeight.getD 0),
            matchAlcoholContent fd.alcoholContent ocr.text ocr.blocks
              ocr.rawTesseractResult (ocr.rotationAppliedDegrees.getD 0)
              (ocr.imageWidth.getD 0) (ocr.imageHeight.getD 0)]
           ++ (if jsTruthy fd.netContents then
                 [matchNetContents (fd.netContents.getD "") ocr.text
                   ocr.rawTesseractResult (ocr.rotationAppliedDegrees.getD 0)
                   (ocr.imageWidth.getD 0) (ocr.imageHeight.getD 0)]
               else [])
           ++ [matchGovernmentWarning ocr.text ocr.rawTesseractResult
                 ocr.allRotationResults (ocr.imageWidth.getD 0)
                 (ocr.imageHeight.getD 0)]) := rfl
    rw [hover, determineOverallStatus_pass_iff]
    cases hjt : jsTruthy fd.netContents
    · rw [if_neg (by simp [hjt])]
      simp only [List.any_append, List.any_cons, List.any_nil,
        matchBrandName_field, matchProductType_field,
        matchAlcoholContent_field, matchGovernmentWarning_field]
      simp [requiredFieldNames]
    · rw [if_pos (by simp [hjt])]
      simp only [List.any_append, List.any_cons, List.any_nil,
        matchBrandName_field, matchProductType_field,
        matchAlcoholContent_field, matchNetContents_field,
        matchGovernmentWarning_field]
      simp [requiredFieldNames]
  · intro pre post v v' hv hv'
    unfold determineOverallStatus
    simp only [List.any_append, List.any_cons, hv, hv', Bool.false_and]

/-- C1 witness: replacing a non-required field (here a matched netContents
record) by a not-found one leaves the overall status unchanged. -/
theorem C1_overall_status_witness :
    determineOverallStatus ([] ++
        ({ field := "netContents", status := .matched, expected := "",
           confidence := 100, message := "" } : FieldVerification) :: []) =
      determineOverallStatus ([] ++
        ({ field := "netContents", status := .notFound, expected := "",
           confidence := 0, message := "" } : FieldVerification) :: []) :=
  C1_overall_status.2.2 [] []
    { field := "netContents", status := .matched, expected := "",
      confidence := 100, message := "" }
    { field := "netContents", status := .notFound, expected := "",
      confidence := 0, message := "" }
    (by decide) (by decide)
